import Mathlib

/-!
# Verification of the Ubuntu_Requests repository

This file gives a shallow embedding of the two programs of the repository:

* `Libraries.py` — a single-image HTTP fetcher (`fetch_and_save_image`)
  with URL-scheme validation, content-type and size checks, write-to-temp,
  content-hash deduplication and collision-free renaming; and
* `Data_analysis.py` — an Iris-dataset loader (`load_and_explore_data`),
  analyzer (`analyze_data`) and visualizer (`create_visualizations`).

The destination directory is modelled as an association list from file
names to byte contents, together with a flag recording whether the
directory exists and the list of printed diagnostic lines.  Byte content
is a list of bytes; SHA-256 hashing is modelled as the identity on
contents (a collision-free digest), so hash equality is content equality.
Network input is an explicit parameter: the parsed URL components, the
response (status, headers, body) or a connection failure, and the current
timestamp string used when a filename has to be synthesized.
-/

/-- Byte content of a response body or a file on disk. -/
abbrev ByteContent := List Nat

/-- The state of the (single) output directory plus the printed lines.
`files` is the directory listing in order: each entry is a file name and
the file's byte content.  `log` holds the printed lines, newest first. -/
structure FileSys where
  dirExists : Bool
  files : List (String × ByteContent)
  log : List String
deriving DecidableEq, Repr

/-- The names present in the directory listing. -/
def fileNames (fs : FileSys) : List String :=
  fs.files.map Prod.fst

/-- Print one line (models `print(...)`). -/
def logLine (fs : FileSys) (s : String) : FileSys :=
  { fs with log := s :: fs.log }

/-- `open(name, 'wb')` followed by a full write: truncate the existing
file of that name if present, otherwise append a new directory entry. -/
def writeFile (fs : FileSys) (name : String) (c : ByteContent) : FileSys :=
  if fs.files.any (fun f => f.1 = name) then
    { fs with files := fs.files.map (fun f => if f.1 = name then (name, c) else f) }
  else
    { fs with files := fs.files ++ [(name, c)] }

/-- `os.remove(name)`: drop the entry of that name. -/
def removeFile (fs : FileSys) (name : String) : FileSys :=
  { fs with files := fs.files.filter (fun f => ¬ f.1 = name) }

/-- Content of the file called `name`, if present. -/
def lookupFile (fs : FileSys) (name : String) : Option ByteContent :=
  (fs.files.find? (fun f => f.1 = name)).map Prod.snd

/-- `os.rename(src, dst)`: move the file at `src` to `dst`.  In the
program `dst` never exists when this is called, so the entry is dropped at
`src` and appended at `dst`. -/
def renameFile (fs : FileSys) (src dst : String) : FileSys :=
  match lookupFile fs src with
  | none => fs
  | some c => writeFile (removeFile fs src) dst c

/-- `os.path.exists` within the output directory. -/
def pathExists (fs : FileSys) (name : String) : Bool :=
  fs.files.any (fun f => f.1 = name)

/-! ## Decimal rendering of the collision counter

`get_unique_filename` builds candidate names with `f"{base}_{counter}{ext}"`.
The decimal rendering of the counter is defined structurally (with fuel, so
that it evaluates by kernel reduction) and is proved injective via an
explicit decimal decoder. -/

/-- The ASCII character of one decimal digit. -/
def digitChar (d : Nat) : Char := Char.ofNat (48 + d)

/-- Decimal digits of `n`, most significant first; `fuel` bounds the
recursion depth and any `fuel > n` is enough. -/
def natCharsAux : Nat → Nat → List Char
  | 0, _ => []
  | fuel + 1, n => if n < 10 then [digitChar n] else natCharsAux fuel (n / 10) ++ [digitChar (n % 10)]

/-- Decimal rendering of `n` (the model of Python's `f"{n}"`). -/
def natChars (n : Nat) : List Char := natCharsAux (n + 1) n

/-- Decimal decoder, a left inverse of `natChars`. -/
def decodeDec (l : List Char) : Nat :=
  l.foldl (fun a c => 10 * a + (c.toNat - 48)) 0

theorem digitChar_toNat {d : Nat} (h : d < 10) : (digitChar d).toNat = 48 + d := by
  interval_cases d <;> rfl

theorem decodeDec_append_digit (l : List Char) (c : Char) :
    decodeDec (l ++ [c]) = 10 * decodeDec l + (c.toNat - 48) := by
  simp [decodeDec]

theorem decodeDec_natCharsAux : ∀ (fuel n : Nat), n < fuel →
    decodeDec (natCharsAux fuel n) = n := by
  intro fuel
  induction fuel with
  | zero => intro n h; omega
  | succ f ih =>
    intro n h
    by_cases h10 : n < 10
    · simp [natCharsAux, h10, decodeDec, digitChar_toNat h10]
    · have hdiv : n / 10 < n := Nat.div_lt_self (by omega) (by omega)
      have hf : n / 10 < f := by omega
      simp only [natCharsAux, if_neg h10, decodeDec_append_digit, ih _ hf,
        digitChar_toNat (Nat.mod_lt n (by omega))]
      omega

theorem decodeDec_natChars (n : Nat) : decodeDec (natChars n) = n :=
  decodeDec_natCharsAux (n + 1) n (Nat.lt_succ_self n)

theorem natChars_injective : Function.Injective natChars := by
  intro a b h
  have : decodeDec (natChars a) = decodeDec (natChars b) := by rw [h]
  simpa [decodeDec_natChars] using this

/-! ## `os.path.splitext` and `get_unique_filename` -/

/-- Scan the reversed character list for the last dot of the name:
returns `some (baseRev, extChars)` where `baseRev` is the part before the
dot (reversed) and `extChars` the part after the dot (in order). -/
def splitextAux : List Char → List Char → Option (List Char × List Char)
  | [], _ => none
  | c :: rest, acc => if c = '.' then some (rest, acc) else splitextAux rest (c :: acc)

/-- `os.path.splitext` on a bare file name (no path separator): split off
the extension at the last dot, unless every character before that dot is
itself a dot (so `".hidden"` has no extension). -/
def splitext (s : String) : String × String :=
  match splitextAux s.data.reverse [] with
  | none => (s, "")
  | some (baseRev, extChars) =>
    if baseRev.all (fun c => c = '.') then (s, "")
    else (⟨baseRev.reverse⟩, ⟨'.' :: extChars⟩)

/-- `f"{base}_{counter}{ext}"`. -/
def mkSuffixed (base ext : String) (counter : Nat) : String :=
  ⟨base.data ++ '_' :: (natChars counter ++ ext.data)⟩

/-- The `while True` loop of `get_unique_filename`: try
`base_1 ext, base_2 ext, …` until a name is free.  The source loops
unboundedly; here the loop carries fuel, and `uniqueLoop_spec` below shows
that `taken.length + 1` rounds always reach a free name, so the fuel-out
branch is never taken with that fuel. -/
def uniqueLoop (taken : List String) (base ext : String) : Nat → Nat → String
  | 0, counter => mkSuffixed base ext counter
  | fuel + 1, counter =>
    let cand := mkSuffixed base ext counter
    if cand ∈ taken then uniqueLoop taken base ext fuel (counter + 1) else cand

/-- `get_unique_filename` of `Libraries.py`, over the listing `taken` of
names that exist: return `filepath` itself if free, else the first
suffixed variant `base_k ext` that is free. -/
def get_unique_filename (taken : List String) (filepath : String) : String :=
  if filepath ∈ taken then
    let be := splitext filepath
    uniqueLoop taken be.1 be.2 (taken.length + 1) 1
  else filepath

theorem mkSuffixed_injective (base ext : String) :
    Function.Injective (mkSuffixed base ext) := by
  intro a b h
  apply natChars_injective
  have hd : base.data ++ '_' :: (natChars a ++ ext.data)
      = base.data ++ '_' :: (natChars b ++ ext.data) := congrArg String.data h
  have h1 : ('_' :: (natChars a ++ ext.data) : List Char)
      = '_' :: (natChars b ++ ext.data) := List.append_cancel_left hd
  have h2 : natChars a ++ ext.data = natChars b ++ ext.data := by
    simpa using h1
  exact List.append_cancel_right h2

/-- Pigeonhole: among the `taken.length + 1` counters starting at `c₀`,
some suffixed name is not taken. -/
theorem exists_free_counter (taken : List String) (base ext : String) (c₀ : Nat) :
    ∃ k, k < taken.length + 1 ∧ mkSuffixed base ext (c₀ + k) ∉ taken := by
  by_contra hall
  push_neg at hall
  have hsub : (Finset.range (taken.length + 1)).image (fun k => mkSuffixed base ext (c₀ + k))
      ⊆ taken.toFinset := by
    intro x hx
    rcases Finset.mem_image.mp hx with ⟨k, hk, rfl⟩
    exact List.mem_toFinset.mpr (hall k (Finset.mem_range.mp hk))
  have hcard : ((Finset.range (taken.length + 1)).image
      (fun k => mkSuffixed base ext (c₀ + k))).card = taken.length + 1 := by
    rw [Finset.card_image_of_injOn, Finset.card_range]
    intro a _ b _ hab
    have := mkSuffixed_injective base ext hab
    omega
  have h1 : taken.length + 1 ≤ taken.toFinset.card := by
    calc taken.length + 1 = _ := hcard.symm
    _ ≤ taken.toFinset.card := Finset.card_le_card hsub
  have h2 : taken.toFinset.card ≤ taken.length := List.toFinset_card_le taken
  omega

/-- What the loop returns: the first free counter at or after the start,
provided some counter within the fuel is free. -/
theorem uniqueLoop_spec (taken : List String) (base ext : String) :
    ∀ (fuel c₀ : Nat), (∃ k, k < fuel ∧ mkSuffixed base ext (c₀ + k) ∉ taken) →
    ∃ k, k < fuel ∧ uniqueLoop taken base ext fuel c₀ = mkSuffixed base ext (c₀ + k) ∧
      mkSuffixed base ext (c₀ + k) ∉ taken ∧
      ∀ j, j < k → mkSuffixed base ext (c₀ + j) ∈ taken := by
  intro fuel
  induction fuel with
  | zero => intro c₀ ⟨k, hk, _⟩; omega
  | succ f ih =>
    intro c₀ ⟨k, hk, hfree⟩
    by_cases hc : mkSuffixed base ext c₀ ∈ taken
    · have hk0 : k ≠ 0 := by
        intro h0; rw [h0] at hfree; simp at hfree; exact hfree hc
      have hex : ∃ k', k' < f ∧ mkSuffixed base ext (c₀ + 1 + k') ∉ taken := by
        refine ⟨k - 1, by omega, ?_⟩
        have : c₀ + 1 + (k - 1) = c₀ + k := by omega
        rw [this]; exact hfree
      rcases ih (c₀ + 1) hex with ⟨k', hk', heq, hfree', hmin⟩
      refine ⟨k' + 1, by omega, ?_, ?_, ?_⟩
      · have : c₀ + (k' + 1) = c₀ + 1 + k' := by omega
        rw [this]
        simpa [uniqueLoop, hc] using heq
      · have : c₀ + (k' + 1) = c₀ + 1 + k' := by omega
        rw [this]; exact hfree'
      · intro j hj
        rcases Nat.eq_zero_or_pos j with hj0 | hjpos
        · subst hj0; simpa using hc
        · have : c₀ + j = c₀ + 1 + (j - 1) := by omega
          rw [this]; exact hmin (j - 1) (by omega)
    · refine ⟨0, by omega, ?_, by simpa using hc, by omega⟩
      simp [uniqueLoop, hc]

/-- The chosen name is never a name that already exists. -/
theorem get_unique_filename_not_mem (taken : List String) (filepath : String) :
    get_unique_filename taken filepath ∉ taken := by
  unfold get_unique_filename
  by_cases hmem : filepath ∈ taken
  · simp only [hmem, if_true]
    rcases exists_free_counter taken (splitext filepath).1 (splitext filepath).2 1 with
      ⟨k, hk, hfree⟩
    rcases uniqueLoop_spec taken (splitext filepath).1 (splitext filepath).2
      (taken.length + 1) 1 ⟨k, hk, hfree⟩ with ⟨k', _, heq, hfree', _⟩
    rw [heq]; exact hfree'
  · simp [hmem]

/-! ## The HTTP layer of `fetch_and_save_image`

The network is an explicit input: the parsed components of the URL, the
response delivered by `requests.get` (or a connection/timeout failure),
and the timestamp used when a filename has to be synthesized. -/

/-- An HTTP response as `fetch_and_save_image` reads it: the status code,
the `Content-Type` and `Content-Length` headers (absent headers are
`none`; header values are raw strings) and the body bytes. -/
structure HttpResponse where
  status : Nat
  contentType : Option String
  contentLength : Option String
  body : ByteContent
deriving DecidableEq, Repr

/-- Outcome of `requests.get`: a response, or a connection/timeout
failure (which raises a `RequestException`). -/
inductive NetResult where
  | success (r : HttpResponse)
  | connectionFailure
deriving DecidableEq, Repr

/-- One invocation's input: the raw URL, its parsed scheme and path
(`urlparse`), the network outcome and the current-time string. -/
structure FetchEnv where
  url : String
  scheme : String
  urlPath : String
  net : NetResult
  now : String
deriving DecidableEq, Repr

/-- The exceptions the body of `fetch_and_save_image` can raise:
`requests.exceptions.RequestException` (from `raise_for_status`,
connection errors and timeouts), `ValueError` (from `int()` on a
malformed `Content-Length`), and `OSError` (only in the run variant where
the final `os.rename` fails). -/
inductive PyExc where
  | requestExc
  | valueErrorExc
  | osErrorExc
deriving DecidableEq, Repr

/-- `str.lower()`. -/
def lowerStr (s : String) : String := ⟨s.data.map Char.toLower⟩

/-- `str.startswith(pat)`. -/
def strStarts (s pat : String) : Bool := pat.data.isPrefixOf s.data

/-- `is_valid_image_content_type` of `Libraries.py`:
`headers.get('Content-Type', '').lower().startswith('image/')`. -/
def is_valid_image_content_type (contentType : Option String) : Bool :=
  strStarts (lowerStr (contentType.getD "")) "image/"

/-- `calculate_file_hash` of `Libraries.py`: SHA-256 over the full byte
content, modelled as a collision-free digest, so the digest is the
content itself and digest equality is content equality. -/
def calculate_file_hash (c : ByteContent) : ByteContent := c

/-- The part of a string after its last `/` (the whole string when it has
none): `os.path.basename` on a URL path, and `split('/')[-1]`. -/
def afterLastSlash (s : String) : String :=
  ⟨(s.data.reverse.takeWhile (fun c => ¬ c = '/')).reverse⟩

/-- Filename derivation of `fetch_and_save_image`: the basename of the
URL path when it is nonempty and has a dot, else a name synthesized from
the timestamp and the `Content-Type` (default `image/jpeg`; the part
after `/`, or `jpg` when the type has no `/`). -/
def deriveFilename (env : FetchEnv) (r : HttpResponse) : String :=
  let filename := afterLastSlash env.urlPath
  if filename = "" ∨ ¬ filename.data.contains '.' then
    let ct := r.contentType.getD "image/jpeg"
    let ext := if ct.data.contains '/' then afterLastSlash ct else "jpg"
    "image_" ++ env.now ++ "." ++ ext
  else filename

/-- Verdict of the `Content-Length` check. -/
inductive SizeVerdict where
  | withinLimit
  | tooLarge
  | badLength
deriving DecidableEq, Repr

/-- The fixed size ceiling: 10 MiB. -/
def sizeLimit : Nat := 10 * 1024 * 1024

/-- `int(s)` on a header string: an optionally `-`-signed run of decimal
digits; anything else raises `ValueError` (`none`). -/
def pyInt? (s : String) : Option Int :=
  match s.data with
  | [] => none
  | '-' :: ds =>
    if ds = [] then none
    else if ds.all (fun c => 48 ≤ c.toNat ∧ c.toNat ≤ 57) then
      some (-(Int.ofNat (decodeDec ds)))
    else none
  | ds =>
    if ds.all (fun c => 48 ≤ c.toNat ∧ c.toNat ≤ 57) then some (Int.ofNat (decodeDec ds))
    else none

/-- `if content_length and int(content_length) > 10 * 1024 * 1024`: an
absent or empty (falsy) header passes, a non-numeric one raises
`ValueError` (`badLength`), a value over the ceiling is rejected. -/
def checkSize (r : HttpResponse) : SizeVerdict :=
  match r.contentLength with
  | none => .withinLimit
  | some s =>
    if s = "" then .withinLimit
    else
      match pyInt? s with
      | none => .badLength
      | some n => if (sizeLimit : Int) < n then .tooLarge else .withinLimit

/-- The temporary path for a derived filename: `f"temp_{filename}"`. -/
def tempNameFor (filename : String) : String := "temp_" ++ filename

/-- `existing_file.startswith('temp_')`: the name-based test by which the
duplicate scan skips entries. -/
def isTempName (s : String) : Bool := strStarts s "temp_"

/-- The duplicate scan of `fetch_and_save_image`: the first entry of the
listing whose name does not start with `temp_` and whose digest equals
the temporary file's digest. -/
def findDuplicate (files : List (String × ByteContent)) (digest : ByteContent) :
    Option String :=
  (files.find? (fun f => !isTempName f.1 && decide (f.2 = digest))).map Prod.fst

/-- The printed duplicate diagnostic. -/
def dupMessage (url name : String) : String :=
  "✗ Image from " ++ url ++ " is a duplicate of " ++ name

/-- Lines 63–70 of `Libraries.py`: create the output directory
(`os.makedirs(..., exist_ok=True)`) and write the response body to the
temporary path `f"temp_{filename}"`. -/
def tempWriteState (env : FetchEnv) (r : HttpResponse) (fs : FileSys) : FileSys :=
  writeFile { fs with dirExists := true } (tempNameFor (deriveFilename env r)) r.body

/-- Line 83: the collision-free final path chosen for the promotion,
`get_unique_filename(filepath)` over the names existing at that moment
(which include the temporary file). -/
def savedPath (env : FetchEnv) (r : HttpResponse) (fs : FileSys) : String :=
  get_unique_filename (fileNames (tempWriteState env r fs)) (deriveFilename env r)

/-- Lines 63–88 of `Libraries.py`: create the directory, write the body
to the temporary path, hash it, scan for a duplicate (reject and delete
the temporary file on a match), else promote the temporary file to a
collision-free final name. -/
def savePhase (env : FetchEnv) (r : HttpResponse) (fs : FileSys) : Bool × FileSys :=
  let fs2 := tempWriteState env r fs
  match findDuplicate fs2.files (calculate_file_hash r.body) with
  | some existing =>
    (false, removeFile (logLine fs2 (dupMessage env.url existing))
      (tempNameFor (deriveFilename env r)))
  | none =>
    let filepath := savedPath env r fs
    let fs3 := renameFile fs2 (tempNameFor (deriveFilename env r)) filepath
    (true, logLine (logLine fs3 ("✓ Successfully fetched: " ++ deriveFilename env r))
        ("✓ Image saved to " ++ filepath))

/-- The `try` block of `fetch_and_save_image`: scheme validation, the
request, `raise_for_status`, the content-type and size checks, then the
save phase.  Exceptions are returned as `.error` together with the file
system at the point they are raised. -/
def fetchBody (env : FetchEnv) (fs : FileSys) :
    Except (PyExc × FileSys) (Bool × FileSys) :=
  if ¬ (env.scheme = "http" ∨ env.scheme = "https") then
    .ok (false, logLine fs
      ("✗ Invalid URL scheme for " ++ env.url ++ ": Must be http or https"))
  else
    match env.net with
    | .connectionFailure => .error (.requestExc, fs)
    | .success r =>
      if 400 ≤ r.status then .error (.requestExc, fs)
      else if is_valid_image_content_type r.contentType then
        match checkSize r with
        | .badLength => .error (.valueErrorExc, fs)
        | .tooLarge => .ok (false, logLine fs
            ("✗ File at " ++ env.url ++ " is too large (exceeds 10MB)"))
        | .withinLimit => .ok (savePhase env r fs)
      else .ok (false, logLine fs
        ("✗ URL " ++ env.url ++ " does not point to an image"))

/-- `fetch_and_save_image` of `Libraries.py`: the body wrapped in its two
handlers, `except requests.exceptions.RequestException` and
`except Exception`, each of which prints a diagnostic and returns
`False`. -/
def fetch_and_save_image (env : FetchEnv) (fs : FileSys) : Bool × FileSys :=
  match fetchBody env fs with
  | .ok result => result
  | .error (.requestExc, fs1) =>
    (false, logLine fs1 ("✗ Connection error for " ++ env.url))
  | .error (_, fs1) =>
    (false, logLine fs1 ("✗ An error occurred for " ++ env.url))

/-- The default `output_dir` of `fetch_and_save_image` (line 32). -/
def fetchOutputDir : String := "Fetched_Images"

/-- Save phase of the run variant in which the final `os.rename` raises
an `OSError`: identical to `savePhase` up to the promotion step, where
the exception is raised with the temporary file still on disk (a failed
rename moves nothing). -/
def savePhaseRenameFail (env : FetchEnv) (r : HttpResponse) (fs : FileSys) :
    Except (PyExc × FileSys) (Bool × FileSys) :=
  let fs2 := tempWriteState env r fs
  match findDuplicate fs2.files (calculate_file_hash r.body) with
  | some existing =>
    .ok (false, removeFile (logLine fs2 (dupMessage env.url existing))
      (tempNameFor (deriveFilename env r)))
  | none => .error (.osErrorExc, fs2)

/-- The `try` block of `fetch_and_save_image` in the run where the final
`os.rename` raises. -/
def fetchBodyRenameFail (env : FetchEnv) (fs : FileSys) :
    Except (PyExc × FileSys) (Bool × FileSys) :=
  if ¬ (env.scheme = "http" ∨ env.scheme = "https") then
    .ok (false, logLine fs
      ("✗ Invalid URL scheme for " ++ env.url ++ ": Must be http or https"))
  else
    match env.net with
    | .connectionFailure => .error (.requestExc, fs)
    | .success r =>
      if 400 ≤ r.status then .error (.requestExc, fs)
      else if is_valid_image_content_type r.contentType then
        match checkSize r with
        | .badLength => .error (.valueErrorExc, fs)
        | .tooLarge => .ok (false, logLine fs
            ("✗ File at " ++ env.url ++ " is too large (exceeds 10MB)"))
        | .withinLimit => savePhaseRenameFail env r fs
      else .ok (false, logLine fs
        ("✗ URL " ++ env.url ++ " does not point to an image"))

/-- `fetch_and_save_image` in the run where the final `os.rename` raises:
the `OSError` is caught by the generic `except Exception` handler, which
prints a diagnostic and returns `False` without deleting the temporary
file. -/
def fetch_and_save_image_renameFail (env : FetchEnv) (fs : FileSys) : Bool × FileSys :=
  match fetchBodyRenameFail env fs with
  | .ok result => result
  | .error (.requestExc, fs1) =>
    (false, logLine fs1 ("✗ Connection error for " ++ env.url))
  | .error (_, fs1) =>
    (false, logLine fs1 ("✗ An error occurred for " ++ env.url))

/-! ## `Data_analysis.py`: data model, loader, analyzer, visualizer -/

/-- One observation row after loading: the four numeric measurements (as
exact rationals) and the species label. -/
structure Row where
  sepalLength : Rat
  sepalWidth : Rat
  petalLength : Rat
  petalWidth : Rat
  species : String
deriving DecidableEq, Repr

/-- The observation table. -/
abbrev Table := List Row

/-- A raw source row as delivered by a data source: numeric fields may be
missing (null). -/
structure RawRow where
  sepalLength : Option Rat
  sepalWidth : Option Rat
  petalLength : Option Rat
  petalWidth : Option Rat
  species : String
deriving DecidableEq, Repr

/-- `df.isnull()` has no hit in this row. -/
def rowComplete (r : RawRow) : Bool :=
  r.sepalLength.isSome && r.sepalWidth.isSome && r.petalLength.isSome && r.petalWidth.isSome

/-- Conversion of a complete raw row. -/
def toRow : RawRow → Option Row
  | ⟨some a, some b, some c, some d, s⟩ => some ⟨a, b, c, d, s⟩
  | _ => none

/-- The ambient world at the moment the loader runs: everything a
non-deterministic loader could consult.  `load_and_explore_data` receives
it and never reads it. -/
structure WorldEnv where
  networkAnswers : List ByteContent
  randomSeed : Nat
  priorState : FileSys

/-- `load_and_explore_data` of `Data_analysis.py`: build the table from
the fixed bundled data source (`sklearn.datasets.load_iris`; its rows are
library data, passed here as the `source` parameter), print the
exploration (prints are not modelled), and drop rows with nulls when any
are present.  The ambient world `w` is never consulted.  The `except`
branch returning `None` exists in the source but no step of the body can
raise, so the result is always `some`. -/
def load_and_explore_data (source : List RawRow) (_w : WorldEnv) : Option Table :=
  let df := if source.any (fun r => !rowComplete r) then source.filter rowComplete else source
  some (df.filterMap toRow)

/-- Per-species entry of `df.groupby('species').mean()`. -/
structure GroupMean where
  species : String
  sepalLengthMean : Rat
  sepalWidthMean : Rat
  petalLengthMean : Rat
  petalWidthMean : Rat
deriving DecidableEq, Repr

/-- Strict lexicographic order on character lists (by code point). -/
def charListLt : List Char → List Char → Bool
  | [], [] => false
  | [], _ :: _ => true
  | _ :: _, [] => false
  | a :: as, b :: bs => if a < b then true else if b < a then false else charListLt as bs

/-- Insert a string into a lexicographically sorted list. -/
def insertSortedStr (s : String) : List String → List String
  | [] => [s]
  | t :: ts => if charListLt t.data s.data then t :: insertSortedStr s ts else s :: t :: ts

/-- Lexicographic sort (pandas sorts group keys). -/
def sortStrings (l : List String) : List String := l.foldr insertSortedStr []

/-- The distinct species of the table, in first-appearance order. -/
def distinctSpecies (df : Table) : List String :=
  df.foldl (fun acc r => if r.species ∈ acc then acc else acc ++ [r.species]) []

/-- Mean of a list of rationals (pandas mean of a nonempty group). -/
def ratMean (l : List Rat) : Rat := l.sum / (l.length : Rat)

/-- `df.groupby('species').mean()` (line 45 of `Data_analysis.py`): one
entry per distinct species present in the table (pandas emits the group
keys sorted), carrying the per-field mean over that species' rows. -/
def groupMeans (df : Table) : List GroupMean :=
  (sortStrings (distinctSpecies df)).map fun s =>
    let rows := df.filter (fun r => r.species = s)
    ⟨s, ratMean (rows.map Row.sepalLength), ratMean (rows.map Row.sepalWidth),
      ratMean (rows.map Row.petalLength), ratMean (rows.map Row.petalWidth)⟩

/-- How the observations step of `analyze_data` can fail.  The code can
only raise `indexError` (pandas positional indexing out of range); the
`insufficientCategoriesError` constructor is the clean failure the
specification prescribes, and the theorems show the code never produces
it. -/
inductive AnalysisError where
  | indexError
  | insufficientCategoriesError
deriving DecidableEq, Repr

/-- `analyze_data` of `Data_analysis.py`: print the descriptive
statistics (line 42; printing is not modelled), compute the group
aggregate, then print the observations, which index the aggregate
positionally at `[0]` (line 53: key and petal-length value) and `[2]`
(line 54: key and sepal-length value); an out-of-range access raises an
uncaught `IndexError`.  On success the aggregate is returned. -/
def analyze_data (df : Table) : Except AnalysisError (List GroupMean) :=
  let gm := groupMeans df
  match gm[0]? with
  | none => .error .indexError
  | some _ =>
    match (gm.map GroupMean.petalLengthMean)[0]? with
    | none => .error .indexError
    | some _ =>
      match gm[2]? with
      | none => .error .indexError
      | some _ =>
        match (gm.map GroupMean.sepalLengthMean)[2]? with
        | none => .error .indexError
        | some _ => .ok gm

/-- The four chart kinds of `create_visualizations`. -/
inductive ChartKind where
  | lineTrend
  | avgBar
  | histogram
  | scatter
deriving DecidableEq, Repr

/-- The four fixed output filenames (lines 75, 86, 95 and 105). -/
def chartFileName : ChartKind → String
  | .lineTrend => "petal_length_trend.png"
  | .avgBar => "avg_petal_length_bar.png"
  | .histogram => "sepal_length_histogram.png"
  | .scatter => "sepal_vs_petal_scatter.png"

/-- The fixed output directory of `create_visualizations` (lines 64–105
of `Data_analysis.py`). -/
def visualizationDir : String := "Fetched_Images"

/-- `create_visualizations` of `Data_analysis.py`: create the output
directory, then render and save the four charts to their fixed names in
order, each `plt.savefig` overwriting any existing file of that name.
Chart rendering is `matplotlib` library code, abstracted as the `render`
parameter mapping a chart kind and the table to image bytes. -/
def create_visualizations (render : ChartKind → Table → ByteContent) (df : Table)
    (fs : FileSys) : FileSys :=
  let fs1 : FileSys := { fs with dirExists := true }
  let fs2 := writeFile fs1 (chartFileName .lineTrend) (render .lineTrend df)
  let fs3 := writeFile fs2 (chartFileName .avgBar) (render .avgBar df)
  let fs4 := writeFile fs3 (chartFileName .histogram) (render .histogram df)
  writeFile fs4 (chartFileName .scatter) (render .scatter df)

/-! ## Basic lemmas about the file-system operations -/

theorem writeFile_log (fs : FileSys) (n : String) (c : ByteContent) :
    (writeFile fs n c).log = fs.log := by
  unfold writeFile; split <;> rfl

theorem writeFile_dirExists (fs : FileSys) (n : String) (c : ByteContent) :
    (writeFile fs n c).dirExists = fs.dirExists := by
  unfold writeFile; split <;> rfl

theorem removeFile_log (fs : FileSys) (n : String) :
    (removeFile fs n).log = fs.log := rfl

theorem logLine_files (fs : FileSys) (s : String) :
    (logLine fs s).files = fs.files := rfl

/-- The write condition, as membership of the name. -/
theorem any_name_iff (fs : FileSys) (n : String) :
    (fs.files.any fun f => decide (f.1 = n)) = true ↔ n ∈ fileNames fs := by
  rw [List.any_eq_true]
  unfold fileNames
  constructor
  · rintro ⟨f, hf, hfn⟩
    simp only [decide_eq_true_eq] at hfn
    exact List.mem_map.mpr ⟨f, hf, hfn⟩
  · intro h
    rcases List.mem_map.mp h with ⟨f, hf, hfn⟩
    exact ⟨f, hf, by simpa using hfn⟩

/-- Writing an existing name maps the listing. -/
theorem writeFile_files_pos {fs : FileSys} {n : String} (c : ByteContent)
    (h : n ∈ fileNames fs) :
    (writeFile fs n c).files = fs.files.map (fun f => if f.1 = n then (n, c) else f) := by
  unfold writeFile
  rw [if_pos ((any_name_iff fs n).mpr h)]

/-- Writing a fresh name appends the entry. -/
theorem writeFile_files_neg {fs : FileSys} {n : String} (c : ByteContent)
    (h : ¬ n ∈ fileNames fs) :
    (writeFile fs n c).files = fs.files ++ [(n, c)] := by
  unfold writeFile
  rw [if_neg (fun hc => h ((any_name_iff fs n).mp hc))]

/-- Every entry after a write is either an old entry or the written one. -/
theorem mem_writeFile_cases {fs : FileSys} {n : String} {c : ByteContent}
    {f : String × ByteContent} (h : f ∈ (writeFile fs n c).files) :
    f ∈ fs.files ∨ f = (n, c) := by
  by_cases hn : n ∈ fileNames fs
  · rw [writeFile_files_pos c hn] at h
    rcases List.mem_map.mp h with ⟨g, hg, hgf⟩
    by_cases hgn : g.1 = n
    · right; rw [if_pos hgn] at hgf; exact hgf.symm
    · left; rw [if_neg hgn] at hgf; exact hgf ▸ hg
  · rw [writeFile_files_neg c hn] at h
    rcases List.mem_append.mp h with h1 | h2
    · exact Or.inl h1
    · exact Or.inr (List.mem_singleton.mp h2)

/-- An old entry whose name differs from the written name survives. -/
theorem mem_writeFile_of_ne {fs : FileSys} {n : String} {c : ByteContent}
    {f : String × ByteContent} (hf : f ∈ fs.files) (hne : ¬ f.1 = n) :
    f ∈ (writeFile fs n c).files := by
  by_cases hn : n ∈ fileNames fs
  · rw [writeFile_files_pos c hn]
    exact List.mem_map.mpr ⟨f, hf, by rw [if_neg hne]⟩
  · rw [writeFile_files_neg c hn]
    exact List.mem_append.mpr (Or.inl hf)

/-- The written name is present after the write. -/
theorem self_mem_fileNames_writeFile (fs : FileSys) (n : String) (c : ByteContent) :
    n ∈ fileNames (writeFile fs n c) := by
  by_cases hn : n ∈ fileNames fs
  · unfold fileNames
    rw [writeFile_files_pos c hn]
    unfold fileNames at hn
    rcases List.mem_map.mp hn with ⟨f, hf, hfn⟩
    exact List.mem_map.mpr ⟨(n, c), List.mem_map.mpr ⟨f, hf, by rw [if_pos hfn]⟩, rfl⟩
  · unfold fileNames
    rw [writeFile_files_neg c hn]
    simp

/-- Old names survive a write. -/
theorem mem_fileNames_writeFile {fs : FileSys} {n m : String} {c : ByteContent}
    (h : m ∈ fileNames fs) : m ∈ fileNames (writeFile fs n c) := by
  unfold fileNames at h
  rcases List.mem_map.mp h with ⟨f, hf, hfm⟩
  by_cases hfn : f.1 = n
  · have : m = n := by rw [← hfm, hfn]
    rw [this]
    exact self_mem_fileNames_writeFile fs n c
  · exact List.mem_map.mpr ⟨f, mem_writeFile_of_ne hf hfn, hfm⟩

/-- Finding the written name in a replaced listing. -/
theorem find?_map_replace (n : String) (c : ByteContent) :
    ∀ (l : List (String × ByteContent)), (∃ f ∈ l, f.1 = n) →
    (l.map (fun f => if f.1 = n then (n, c) else f)).find? (fun f => decide (f.1 = n))
      = some (n, c) := by
  intro l
  induction l with
  | nil => rintro ⟨f, hf, _⟩; cases hf
  | cons g l ih =>
    rintro ⟨f, hf, hfn⟩
    by_cases hg : g.1 = n
    · rw [List.map_cons, if_pos hg]
      exact List.find?_cons_of_pos _ (by simp)
    · rcases List.mem_cons.mp hf with rfl | hfl
      · exact absurd hfn hg
      · rw [List.map_cons, if_neg hg, List.find?_cons_of_neg _ (by simpa using hg)]
        exact ih ⟨f, hfl, hfn⟩

/-- Reading back the name just written yields the written content. -/
theorem lookupFile_writeFile_self (fs : FileSys) (n : String) (c : ByteContent) :
    lookupFile (writeFile fs n c) n = some c := by
  unfold lookupFile
  by_cases hn : n ∈ fileNames fs
  · rw [writeFile_files_pos c hn]
    have hex : ∃ f ∈ fs.files, f.1 = n := by
      unfold fileNames at hn
      rcases List.mem_map.mp hn with ⟨f, hf, hfn⟩
      exact ⟨f, hf, hfn⟩
    rw [find?_map_replace n c fs.files hex]
    rfl
  · rw [writeFile_files_neg c hn]
    have hnone : fs.files.find? (fun f => decide (f.1 = n)) = none := by
      rw [List.find?_eq_none]
      intro x hx
      simp only [decide_eq_true_eq]
      intro hxn
      exact hn ((any_name_iff fs n).mp (List.any_eq_true.mpr ⟨x, hx, by simpa using hxn⟩))
    rw [List.find?_append, hnone]
    simp [List.find?_cons]

/-- Filtering away the written name undoes the write. -/
theorem filter_map_replace (l : List (String × ByteContent)) (n : String) (c : ByteContent) :
    (l.map (fun f => if f.1 = n then (n, c) else f)).filter (fun f => ¬ f.1 = n)
      = l.filter (fun f => ¬ f.1 = n) := by
  induction l with
  | nil => rfl
  | cons g l ih =>
    by_cases hg : g.1 = n
    · rw [List.map_cons, if_pos hg, List.filter_cons, List.filter_cons]
      simp only [hg]
      simpa using ih
    · rw [List.map_cons, if_neg hg, List.filter_cons, List.filter_cons]
      simp only [decide_not] at ih
      simp [hg, ih]

/-- A write followed by a filter on that very name sees only the old
entries (so removing the temporary file undoes its creation). -/
theorem writeFile_filter_ne (fs : FileSys) (n : String) (c : ByteContent) :
    (writeFile fs n c).files.filter (fun f => ¬ f.1 = n)
      = fs.files.filter (fun f => ¬ f.1 = n) := by
  by_cases hn : n ∈ fileNames fs
  · rw [writeFile_files_pos c hn]
    exact filter_map_replace fs.files n c
  · rw [writeFile_files_neg c hn, List.filter_append]
    simp

theorem renameFile_log (fs : FileSys) (src dst : String) :
    (renameFile fs src dst).log = fs.log := by
  unfold renameFile
  split
  · rfl
  · rw [writeFile_log]; rfl

/-! ## Lemmas about the string helpers -/

theorem strStarts_append_left (a b p : String)
    (h : strStarts a p = true) : strStarts (a ++ b) p = true := by
  unfold strStarts at *
  rw [String.data_append]
  rw [List.isPrefixOf_iff_prefix] at *
  exact h.trans (List.prefix_append a.data b.data)

theorem isTempName_tempNameFor (s : String) : isTempName (tempNameFor s) = true := by
  unfold isTempName tempNameFor
  exact strStarts_append_left "temp_" s "temp_" (by decide)

theorem tempNameFor_ne_self (s : String) : ¬ tempNameFor s = s := by
  intro h
  have hd : ("temp_" ++ s).data = s.data := congrArg String.data h
  rw [String.data_append] at hd
  have hlen : ("temp_".data ++ s.data).length = s.data.length := congrArg List.length hd
  rw [List.length_append] at hlen
  simp at hlen

/-- A name that does not start with `temp_` differs from every temporary
name. -/
theorem ne_tempNameFor_of_not_temp {p : String} (h : isTempName p = false)
    (s : String) : ¬ p = tempNameFor s := by
  intro he
  rw [he, isTempName_tempNameFor] at h
  cases h

/-! ## Control-flow characterization of `fetch_and_save_image` -/

/-- The checks before the save phase, as one predicate: valid scheme, a
response, good status, image content-type, size within the ceiling. -/
def reachesSaveStep (env : FetchEnv) : Bool :=
  decide (env.scheme = "http" ∨ env.scheme = "https") &&
  match env.net with
  | .connectionFailure => false
  | .success r =>
    decide (r.status < 400) && is_valid_image_content_type r.contentType &&
      decide (checkSize r = .withinLimit)

/-- The temporary path an invocation uses once it reaches the save
phase. -/
def tempNameOf (env : FetchEnv) : String :=
  match env.net with
  | .success r => tempNameFor (deriveFilename env r)
  | .connectionFailure => ""

/-- Every run either reaches the save phase (all checks pass), or it
returns `False` leaving the listing and the directory flag untouched and
prints one `✗` diagnostic. -/
theorem fetch_run_cases (env : FetchEnv) (fs : FileSys) :
    (∃ r, env.net = .success r ∧ reachesSaveStep env = true ∧
       fetch_and_save_image env fs = savePhase env r fs)
    ∨ (reachesSaveStep env = false ∧ (fetch_and_save_image env fs).1 = false ∧
       (fetch_and_save_image env fs).2.files = fs.files ∧
       (fetch_and_save_image env fs).2.dirExists = fs.dirExists ∧
       ∃ line, (fetch_and_save_image env fs).2.log = line :: fs.log ∧
         strStarts line "✗" = true) := by
  by_cases hs : env.scheme = "http" ∨ env.scheme = "https"
  · cases hnet : env.net with
    | connectionFailure =>
      right
      refine ⟨by simp [reachesSaveStep, hnet], ?_, ?_, ?_, ?_⟩ <;>
        simp only [fetch_and_save_image, fetchBody, hnet, if_neg (not_not_intro hs)]
      all_goals try rfl
      refine ⟨_, rfl, ?_⟩
      exact strStarts_append_left "✗ Connection error for " env.url "✗" (by decide)
    | success r =>
      by_cases hst : 400 ≤ r.status
      · right
        refine ⟨by simp [reachesSaveStep, hnet]; omega, ?_, ?_, ?_, ?_⟩ <;>
          simp only [fetch_and_save_image, fetchBody, hnet,
            if_neg (not_not_intro hs), if_pos hst]
        all_goals try rfl
        refine ⟨_, rfl, ?_⟩
        exact strStarts_append_left "✗ Connection error for " env.url "✗" (by decide)
      · by_cases hct : is_valid_image_content_type r.contentType = true
        · cases hsz : checkSize r with
          | withinLimit =>
            left
            refine ⟨r, rfl, ?_, ?_⟩
            · simp [reachesSaveStep, hnet, hs, hct, hsz]; omega
            · simp only [fetch_and_save_image, fetchBody, hnet,
                if_neg (not_not_intro hs), if_neg hst, if_pos hct, hsz]
          | tooLarge =>
            right
            refine ⟨?_, ?_, ?_, ?_, ?_⟩
            · simp [reachesSaveStep, hnet, hsz]
            all_goals simp only [fetch_and_save_image, fetchBody, hnet,
              if_neg (not_not_intro hs), if_neg hst, if_pos hct, hsz]
            all_goals try rfl
            refine ⟨_, rfl, ?_⟩
            exact strStarts_append_left ("✗ File at " ++ env.url)
              " is too large (exceeds 10MB)" "✗"
              (strStarts_append_left "✗ File at " env.url "✗" (by decide))
          | badLength =>
            right
            refine ⟨?_, ?_, ?_, ?_, ?_⟩
            · simp [reachesSaveStep, hnet, hsz]
            all_goals simp only [fetch_and_save_image, fetchBody, hnet,
              if_neg (not_not_intro hs), if_neg hst, if_pos hct, hsz]
            all_goals try rfl
            refine ⟨_, rfl, ?_⟩
            exact strStarts_append_left "✗ An error occurred for " env.url "✗" (by decide)
        · right
          have hct2 : is_valid_image_content_type r.contentType = false := by
            revert hct; cases is_valid_image_content_type r.contentType <;> simp
          refine ⟨?_, ?_, ?_, ?_, ?_⟩
          · simp [reachesSaveStep, hnet, hct2]
          all_goals simp only [fetch_and_save_image, fetchBody, hnet,
            if_neg (not_not_intro hs), if_neg hst, hct2, Bool.false_eq_true, if_false]
          all_goals try rfl
          refine ⟨_, rfl, ?_⟩
          exact strStarts_append_left ("✗ URL " ++ env.url)
            " does not point to an image" "✗"
            (strStarts_append_left "✗ URL " env.url "✗" (by decide))
  · right
    refine ⟨by simp [reachesSaveStep, hs], ?_, ?_, ?_, ?_⟩ <;>
      simp only [fetch_and_save_image, fetchBody, if_pos hs]
    all_goals try rfl
    refine ⟨_, rfl, ?_⟩
    exact strStarts_append_left ("✗ Invalid URL scheme for " ++ env.url)
      ": Must be http or https" "✗"
      (strStarts_append_left "✗ Invalid URL scheme for " env.url "✗" (by decide))

/-- Names of a listing after `removeFile` come from the original. -/
theorem mem_fileNames_removeFile {fs : FileSys} {n m : String}
    (h : m ∈ fileNames (removeFile fs n)) : m ∈ fileNames fs := by
  unfold fileNames removeFile at *
  rcases List.mem_map.mp h with ⟨f, hf, hfm⟩
  exact List.mem_map.mpr ⟨f, (List.mem_filter.mp hf).1, hfm⟩

/-- The save phase on a duplicate hit: report, delete the temporary file,
return `False`. -/
theorem savePhase_eq_dup {env : FetchEnv} {r : HttpResponse} {fs : FileSys}
    {existing : String}
    (hfd : findDuplicate (tempWriteState env r fs).files (calculate_file_hash r.body)
      = some existing) :
    savePhase env r fs
      = (false, removeFile (logLine (tempWriteState env r fs) (dupMessage env.url existing))
          (tempNameFor (deriveFilename env r))) := by
  simp only [savePhase, hfd]

/-- The save phase with no duplicate: promote the temporary file. -/
theorem savePhase_eq_promote {env : FetchEnv} {r : HttpResponse} {fs : FileSys}
    (hfd : findDuplicate (tempWriteState env r fs).files (calculate_file_hash r.body)
      = none) :
    savePhase env r fs
      = (true, logLine (logLine
          (renameFile (tempWriteState env r fs) (tempNameFor (deriveFilename env r))
            (savedPath env r fs))
          ("✓ Successfully fetched: " ++ deriveFilename env r))
          ("✓ Image saved to " ++ savedPath env r fs)) := by
  simp only [savePhase, hfd]

/-- The chosen promotion path is fresh at promotion time. -/
theorem savedPath_not_mem (env : FetchEnv) (r : HttpResponse) (fs : FileSys) :
    ¬ savedPath env r fs ∈ fileNames (tempWriteState env r fs) :=
  get_unique_filename_not_mem _ _

/-- Listing after deleting the temporary file: exactly the old entries
not named like it. -/
theorem dup_state_files (env : FetchEnv) (r : HttpResponse) (fs : FileSys)
    (existing : String) :
    (removeFile (logLine (tempWriteState env r fs) (dupMessage env.url existing))
        (tempNameFor (deriveFilename env r))).files
      = fs.files.filter (fun f => ¬ f.1 = tempNameFor (deriveFilename env r)) := by
  unfold removeFile
  rw [logLine_files]
  unfold tempWriteState
  exact writeFile_filter_ne { fs with dirExists := true } _ r.body

/-- Listing after the promotion: the old entries not named like the
temporary file, plus the promoted file. -/
theorem promote_state_files (env : FetchEnv) (r : HttpResponse) (fs : FileSys) :
    (renameFile (tempWriteState env r fs) (tempNameFor (deriveFilename env r))
        (savedPath env r fs)).files
      = fs.files.filter (fun f => ¬ f.1 = tempNameFor (deriveFilename env r))
          ++ [(savedPath env r fs, r.body)] := by
  have hl : lookupFile (tempWriteState env r fs) (tempNameFor (deriveFilename env r))
      = some r.body := by
    unfold tempWriteState
    exact lookupFile_writeFile_self _ _ _
  unfold renameFile
  rw [hl]
  have hpnot : ¬ savedPath env r fs ∈ fileNames
      (removeFile (tempWriteState env r fs) (tempNameFor (deriveFilename env r))) :=
    fun hmem => savedPath_not_mem env r fs (mem_fileNames_removeFile hmem)
  rw [writeFile_files_neg r.body hpnot]
  unfold removeFile
  unfold tempWriteState
  rw [writeFile_filter_ne { fs with dirExists := true } _ r.body]

/-- The promoted path differs from the temporary path. -/
theorem savedPath_ne_tempName (env : FetchEnv) (r : HttpResponse) (fs : FileSys) :
    ¬ savedPath env r fs = tempNameFor (deriveFilename env r) := by
  intro h
  apply savedPath_not_mem env r fs
  rw [h]
  unfold tempWriteState
  exact self_mem_fileNames_writeFile _ _ _

/-- The duplicate scan misses when every entry is skipped (temporary
name) or differs in content. -/
theorem findDuplicate_eq_none {files : List (String × ByteContent)} {digest : ByteContent}
    (h : ∀ f ∈ files, isTempName f.1 = true ∨ ¬ f.2 = digest) :
    findDuplicate files digest = none := by
  unfold findDuplicate
  have : files.find? (fun f => !isTempName f.1 && decide (f.2 = digest)) = none := by
    rw [List.find?_eq_none]
    intro f hf
    rcases h f hf with ht | hc
    · simp [ht]
    · simp [hc]
  rw [this]
  rfl

/-- The duplicate scan hits when some non-temporary entry carries the
digest. -/
theorem findDuplicate_eq_some (files : List (String × ByteContent)) (digest : ByteContent)
    (f : String × ByteContent) (hf : f ∈ files) (ht : isTempName f.1 = false)
    (hc : f.2 = digest) :
    ∃ name, findDuplicate files digest = some name := by
  unfold findDuplicate
  have hsome : (files.find? (fun f => !isTempName f.1 && decide (f.2 = digest))).isSome := by
    rw [List.find?_isSome]
    exact ⟨f, hf, by simp [ht, hc]⟩
  rcases Option.isSome_iff_exists.mp hsome with ⟨g, hg⟩
  exact ⟨g.1, by rw [hg]; rfl⟩

/-- `get_unique_filename` keeps a free name unchanged. -/
theorem get_unique_filename_free {taken : List String} {fp : String}
    (h : ¬ fp ∈ taken) : get_unique_filename taken fp = fp := by
  unfold get_unique_filename
  rw [if_neg h]

/-- `get_unique_filename` on a taken name: the first free suffixed
variant, counting up from 1. -/
theorem get_unique_filename_spec_taken {taken : List String} {fp : String}
    (h : fp ∈ taken) :
    ∃ k, 1 ≤ k ∧ get_unique_filename taken fp
        = mkSuffixed (splitext fp).1 (splitext fp).2 k
      ∧ mkSuffixed (splitext fp).1 (splitext fp).2 k ∉ taken
      ∧ ∀ j, 1 ≤ j → j < k → mkSuffixed (splitext fp).1 (splitext fp).2 j ∈ taken := by
  rcases exists_free_counter taken (splitext fp).1 (splitext fp).2 1 with ⟨k0, hk0, hfree⟩
  rcases uniqueLoop_spec taken (splitext fp).1 (splitext fp).2 (taken.length + 1) 1
    ⟨k0, hk0, hfree⟩ with ⟨k', _, heq, hfree', hmin⟩
  refine ⟨1 + k', by omega, ?_, hfree', ?_⟩
  · unfold get_unique_filename
    rw [if_pos h]
    exact heq
  · intro j h1 hj
    have hje : j = 1 + (j - 1) := by omega
    rw [hje]
    exact hmin (j - 1) (by omega)

/-- Listing names after a fresh write. -/
theorem fileNames_writeFile_fresh {fs : FileSys} {n : String} (c : ByteContent)
    (h : ¬ n ∈ fileNames fs) :
    fileNames (writeFile fs n c) = fileNames fs ++ [n] := by
  unfold fileNames
  rw [writeFile_files_neg c h, List.map_append]
  rfl

/-! ## Lemmas about the analyzer -/

theorem mem_insertSortedStr {x s : String} : ∀ {l : List String},
    x ∈ insertSortedStr s l ↔ x = s ∨ x ∈ l := by
  intro l
  induction l with
  | nil => simp [insertSortedStr]
  | cons t ts ih =>
    unfold insertSortedStr
    by_cases h : charListLt t.data s.data = true
    · rw [if_pos h]
      simp only [List.mem_cons, ih]
      tauto
    · rw [if_neg h]
      simp [List.mem_cons]

theorem mem_sortStrings {x : String} : ∀ {l : List String}, x ∈ sortStrings l ↔ x ∈ l := by
  intro l
  induction l with
  | nil => simp [sortStrings]
  | cons s ts ih =>
    show x ∈ insertSortedStr s (sortStrings ts) ↔ _
    rw [mem_insertSortedStr, ih]
    simp

theorem length_insertSortedStr (s : String) : ∀ (l : List String),
    (insertSortedStr s l).length = l.length + 1 := by
  intro l
  induction l with
  | nil => rfl
  | cons t ts ih =>
    unfold insertSortedStr
    by_cases h : charListLt t.data s.data = true
    · rw [if_pos h]
      simp [ih]
    · rw [if_neg h]
      simp

theorem length_sortStrings : ∀ (l : List String), (sortStrings l).length = l.length := by
  intro l
  induction l with
  | nil => rfl
  | cons s ts ih =>
    show (insertSortedStr s (sortStrings ts)).length = _
    rw [length_insertSortedStr, ih]
    rfl

theorem mem_distinct_foldl (x : String) : ∀ (df : Table) (acc : List String),
    x ∈ df.foldl (fun acc r => if r.species ∈ acc then acc else acc ++ [r.species]) acc
      ↔ x ∈ acc ∨ ∃ r ∈ df, r.species = x := by
  intro df
  induction df with
  | nil => intro acc; simp
  | cons r df ih =>
    intro acc
    rw [List.foldl_cons]
    by_cases hr : r.species ∈ acc
    · rw [if_pos hr, ih]
      constructor
      · rintro (h | ⟨r', hr', hx⟩)
        · exact Or.inl h
        · exact Or.inr ⟨r', List.mem_cons_of_mem _ hr', hx⟩
      · rintro (h | ⟨r', hr', hx⟩)
        · exact Or.inl h
        · rcases List.mem_cons.mp hr' with rfl | hmem
          · exact Or.inl (hx ▸ hr)
          · exact Or.inr ⟨r', hmem, hx⟩
    · rw [if_neg hr, ih]
      constructor
      · rintro (h | ⟨r', hr', hx⟩)
        · rcases List.mem_append.mp h with ha | hs
          · exact Or.inl ha
          · exact Or.inr ⟨r, List.mem_cons_self _ _, (List.mem_singleton.mp hs).symm⟩
        · exact Or.inr ⟨r', List.mem_cons_of_mem _ hr', hx⟩
      · rintro (h | ⟨r', hr', hx⟩)
        · exact Or.inl (List.mem_append.mpr (Or.inl h))
        · rcases List.mem_cons.mp hr' with rfl | hmem
          · exact Or.inl (List.mem_append.mpr (Or.inr (List.mem_singleton.mpr hx.symm)))
          · exact Or.inr ⟨r', hmem, hx⟩

theorem mem_distinctSpecies (df : Table) (x : String) :
    x ∈ distinctSpecies df ↔ ∃ r ∈ df, r.species = x := by
  unfold distinctSpecies
  rw [mem_distinct_foldl]
  simp

theorem distinctSpecies_eq_nil_iff (df : Table) : distinctSpecies df = [] ↔ df = [] := by
  constructor
  · intro h
    cases df with
    | nil => rfl
    | cons r df' =>
      exfalso
      have hm : r.species ∈ distinctSpecies (r :: df') :=
        (mem_distinctSpecies _ _).mpr ⟨r, List.mem_cons_self _ _, rfl⟩
      rw [h] at hm
      cases hm
  · rintro rfl
    rfl

theorem groupMeans_map_species (df : Table) :
    (groupMeans df).map GroupMean.species = sortStrings (distinctSpecies df) := by
  unfold groupMeans
  rw [List.map_map]
  conv_rhs => rw [← List.map_id (sortStrings (distinctSpecies df))]
  apply List.map_congr_left
  intro s _
  rfl

theorem groupMeans_length (df : Table) :
    (groupMeans df).length = (distinctSpecies df).length := by
  unfold groupMeans
  rw [List.length_map, length_sortStrings]

/-! ## The claims -/

/-- A concrete table with two distinct categories. -/
def twoSpeciesTable : Table :=
  [⟨1, 1, 1, 1, "setosa"⟩, ⟨2, 2, 2, 2, "versicolor"⟩]

/-- C3 (counterexample): on a table with two distinct categories the
analyzer does not fail with an `InsufficientCategoriesError` — no such
error exists in the code; the positional access raises a plain
`IndexError` instead. -/
theorem c3_counterexample_no_insufficient_categories :
    ¬ analyze_data twoSpeciesTable
      = Except.error AnalysisError.insufficientCategoriesError := by
  intro h
  have he : analyze_data twoSpeciesTable = Except.error AnalysisError.indexError := rfl
  rw [he] at h
  injection h with h2
  exact AnalysisError.noConfusion h2

/-- C3 (amended): for every observation table with fewer than 3 distinct
categories, the analyzer's positional indexing fails by raising an
uncaught `IndexError` (it does not read out of bounds, but no
`InsufficientCategoriesError` is produced). -/
theorem c3_few_categories_index_error (df : Table)
    (h : (distinctSpecies df).length < 3) :
    analyze_data df = Except.error AnalysisError.indexError := by
  have hlen : (groupMeans df).length < 3 := by
    rw [groupMeans_length]
    exact h
  have h2 : (groupMeans df)[2]? = none := List.getElem?_eq_none (by omega)
  unfold analyze_data
  cases h0 : (groupMeans df)[0]? with
  | none => simp [h0]
  | some g0 => simp [h0, List.getElem?_map, h2]

/-- C3 (witness): the amended claim at the two-category table. -/
theorem c3_few_categories_index_error_witness :
    analyze_data twoSpeciesTable = Except.error AnalysisError.indexError :=
  c3_few_categories_index_error twoSpeciesTable (by decide)

/-- C4: for every observation table, the key set of the group aggregate
equals exactly the set of distinct categories present in the rows, and
the aggregate is empty iff the table has no rows. -/
theorem c4_group_aggregate_keys (df : Table) :
    ((groupMeans df).map GroupMean.species).toFinset = (df.map Row.species).toFinset
    ∧ (groupMeans df = [] ↔ df = []) := by
  constructor
  · ext x
    rw [List.mem_toFinset, List.mem_toFinset, groupMeans_map_species, mem_sortStrings,
      mem_distinctSpecies, List.mem_map]
  · constructor
    · intro h
      have hl : (groupMeans df).length = 0 := by rw [h]; rfl
      rw [groupMeans_length] at hl
      exact (distinctSpecies_eq_nil_iff df).mp (List.length_eq_zero.mp hl)
    · rintro rfl
      rfl

/-- C5: every fetch invocation whose response declares a content length
over 10 MiB returns failure and leaves the directory entirely unchanged
(same listing, same directory flag). -/
theorem c5_oversized_rejected (env : FetchEnv) (r : HttpResponse) (fs : FileSys)
    (s : String) (n : Int)
    (hnet : env.net = .success r)
    (hcl : r.contentLength = some s)
    (hn : pyInt? s = some n)
    (hbig : (sizeLimit : Int) < n) :
    (fetch_and_save_image env fs).1 = false
    ∧ (fetch_and_save_image env fs).2.files = fs.files
    ∧ (fetch_and_save_image env fs).2.dirExists = fs.dirExists := by
  have hemp : ¬ s = "" := by
    rintro rfl
    rw [show pyInt? "" = none from rfl] at hn
    cases hn
  have hsz : checkSize r = .tooLarge := by
    unfold checkSize
    simp only [hcl, hn]
    rw [if_neg hemp, if_pos hbig]
  rcases fetch_run_cases env fs with ⟨r', hnet', hreach, _⟩ | ⟨_, h1, h2, h3, _⟩
  · exfalso
    rw [hnet] at hnet'
    injection hnet' with hrr
    subst hrr
    unfold reachesSaveStep at hreach
    rw [hnet] at hreach
    simp [hsz] at hreach
  · exact ⟨h1, h2, h3⟩

/-- C5 (witness): a concrete oversized response. -/
theorem c5_oversized_rejected_witness :
    (fetch_and_save_image
      ⟨"http://e.com/a.jpg", "http", "/a.jpg",
        .success ⟨200, some "image/jpeg", some "10485761", [1]⟩, "t"⟩
      ⟨false, [], []⟩).1 = false
    ∧ (fetch_and_save_image
      ⟨"http://e.com/a.jpg", "http", "/a.jpg",
        .success ⟨200, some "image/jpeg", some "10485761", [1]⟩, "t"⟩
      ⟨false, [], []⟩).2.files = (⟨false, [], []⟩ : FileSys).files
    ∧ (fetch_and_save_image
      ⟨"http://e.com/a.jpg", "http", "/a.jpg",
        .success ⟨200, some "image/jpeg", some "10485761", [1]⟩, "t"⟩
      ⟨false, [], []⟩).2.dirExists = (⟨false, [], []⟩ : FileSys).dirExists :=
  c5_oversized_rejected _ ⟨200, some "image/jpeg", some "10485761", [1]⟩ _
    "10485761" 10485761 rfl rfl (by decide) (by decide)

/-- C8: the loader is a deterministic function of its fixed bundled data
source: two runs over the same source, whatever the ambient world
(network answers, randomness, prior state) of each run, produce identical
tables row for row. -/
theorem c8_loader_deterministic (source : List RawRow) (w1 w2 : WorldEnv) :
    load_and_explore_data source w1 = load_and_explore_data source w2 := rfl

/-- C9: `fetch_and_save_image` is total at its interface: every
invocation returns a boolean, and on `False` a `✗` diagnostic line has
been printed (every exception of the body is caught by the two handlers
and converted to a diagnostic plus `False`). -/
theorem c9_total_interface (env : FetchEnv) (fs : FileSys) :
    (fetch_and_save_image env fs).1 = true
    ∨ ((fetch_and_save_image env fs).1 = false
        ∧ ∃ line ∈ (fetch_and_save_image env fs).2.log, strStarts line "✗" = true) := by
  rcases fetch_run_cases env fs with ⟨r, _, _, heq⟩ | ⟨_, h1, _, _, line, hlog, hx⟩
  · rw [heq]
    cases hfd : findDuplicate (tempWriteState env r fs).files (calculate_file_hash r.body) with
    | some existing =>
      right
      rw [savePhase_eq_dup hfd]
      refine ⟨rfl, dupMessage env.url existing, ?_, ?_⟩
      · show dupMessage env.url existing
          ∈ (removeFile (logLine (tempWriteState env r fs) (dupMessage env.url existing)) _).log
        rw [removeFile_log]
        exact List.mem_cons_self _ _
      · unfold dupMessage
        exact strStarts_append_left _ existing "✗"
          (strStarts_append_left ("✗ Image from " ++ env.url) " is a duplicate of " "✗"
            (strStarts_append_left "✗ Image from " env.url "✗" (by decide)))
    | none =>
      left
      rw [savePhase_eq_promote hfd]
  · right
    refine ⟨h1, line, ?_, hx⟩
    rw [hlog]
    exact List.mem_cons_self _ _

/-- A fresh-name write, at the state level. -/
theorem writeFile_eq_of_not_mem {fs : FileSys} {n : String} (c : ByteContent)
    (h : ¬ n ∈ fileNames fs) :
    writeFile fs n c = { fs with files := fs.files ++ [(n, c)] } := by
  unfold writeFile
  rw [if_neg (fun hc => h ((any_name_iff fs n).mp hc))]

/-- An existing-name write, at the state level. -/
theorem writeFile_eq_of_mem {fs : FileSys} {n : String} (c : ByteContent)
    (h : n ∈ fileNames fs) :
    writeFile fs n c
      = { fs with files := fs.files.map (fun f => if f.1 = n then (n, c) else f) } := by
  unfold writeFile
  rw [if_pos ((any_name_iff fs n).mpr h)]

/-- The listing after one visualizer run on an empty directory. -/
theorem create_visualizations_empty (render : ChartKind → Table → ByteContent)
    (df : Table) (d : Bool) (log : List String) :
    create_visualizations render df ⟨d, [], log⟩
      = ⟨true, [(chartFileName .lineTrend, render .lineTrend df),
                (chartFileName .avgBar, render .avgBar df),
                (chartFileName .histogram, render .histogram df),
                (chartFileName .scatter, render .scatter df)], log⟩ := by
  have w1 : writeFile ⟨true, [], log⟩ (chartFileName .lineTrend) (render .lineTrend df)
      = ⟨true, [(chartFileName .lineTrend, render .lineTrend df)], log⟩ :=
    writeFile_eq_of_not_mem _ (by simp [fileNames])
  have w2 : writeFile ⟨true, [(chartFileName .lineTrend, render .lineTrend df)], log⟩
        (chartFileName .avgBar) (render .avgBar df)
      = ⟨true, [(chartFileName .lineTrend, render .lineTrend df),
                (chartFileName .avgBar, render .avgBar df)], log⟩ :=
    writeFile_eq_of_not_mem _ (by simp [fileNames, chartFileName])
  have w3 : writeFile ⟨true, [(chartFileName .lineTrend, render .lineTrend df),
                (chartFileName .avgBar, render .avgBar df)], log⟩
        (chartFileName .histogram) (render .histogram df)
      = ⟨true, [(chartFileName .lineTrend, render .lineTrend df),
                (chartFileName .avgBar, render .avgBar df),
                (chartFileName .histogram, render .histogram df)], log⟩ :=
    writeFile_eq_of_not_mem _ (by simp [fileNames, chartFileName])
  have w4 : writeFile ⟨true, [(chartFileName .lineTrend, render .lineTrend df),
                (chartFileName .avgBar, render .avgBar df),
                (chartFileName .histogram, render .histogram df)], log⟩
        (chartFileName .scatter) (render .scatter df)
      = ⟨true, [(chartFileName .lineTrend, render .lineTrend df),
                (chartFileName .avgBar, render .avgBar df),
                (chartFileName .histogram, render .histogram df),
                (chartFileName .scatter, render .scatter df)], log⟩ :=
    writeFile_eq_of_not_mem _ (by simp [fileNames, chartFileName])
  show writeFile (writeFile (writeFile (writeFile ⟨true, [], log⟩ _ _) _ _) _ _) _ _ = _
  rw [w1, w2, w3, w4]

/-- The listing after a second visualizer run: same four names, freshly
rendered contents. -/
theorem create_visualizations_second (render : ChartKind → Table → ByteContent)
    (df df2 : Table) (d : Bool) (log : List String) :
    create_visualizations render df2
        ⟨d, [(chartFileName .lineTrend, render .lineTrend df),
             (chartFileName .avgBar, render .avgBar df),
             (chartFileName .histogram, render .histogram df),
             (chartFileName .scatter, render .scatter df)], log⟩
      = ⟨true, [(chartFileName .lineTrend, render .lineTrend df2),
                (chartFileName .avgBar, render .avgBar df2),
                (chartFileName .histogram, render .histogram df2),
                (chartFileName .scatter, render .scatter df2)], log⟩ := by
  have w1 : writeFile ⟨true, [(chartFileName .lineTrend, render .lineTrend df),
                (chartFileName .avgBar, render .avgBar df),
                (chartFileName .histogram, render .histogram df),
                (chartFileName .scatter, render .scatter df)], log⟩
        (chartFileName .lineTrend) (render .lineTrend df2)
      = ⟨true, [(chartFileName .lineTrend, render .lineTrend df2),
                (chartFileName .avgBar, render .avgBar df),
                (chartFileName .histogram, render .histogram df),
                (chartFileName .scatter, render .scatter df)], log⟩ := by
    rw [writeFile_eq_of_mem _ (by simp [fileNames, chartFileName])]
    simp [chartFileName]
  have w2 : writeFile ⟨true, [(chartFileName .lineTrend, render .lineTrend df2),
                (chartFileName .avgBar, render .avgBar df),
                (chartFileName .histogram, render .histogram df),
                (chartFileName .scatter, render .scatter df)], log⟩
        (chartFileName .avgBar) (render .avgBar df2)
      = ⟨true, [(chartFileName .lineTrend, render .lineTrend df2),
                (chartFileName .avgBar, render .avgBar df2),
                (chartFileName .histogram, render .histogram df),
                (chartFileName .scatter, render .scatter df)], log⟩ := by
    rw [writeFile_eq_of_mem _ (by simp [fileNames, chartFileName])]
    simp [chartFileName]
  have w3 : writeFile ⟨true, [(chartFileName .lineTrend, render .lineTrend df2),
                (chartFileName .avgBar, render .avgBar df2),
                (chartFileName .histogram, render .histogram df),
                (chartFileName .scatter, render .scatter df)], log⟩
        (chartFileName .histogram) (render .histogram df2)
      = ⟨true, [(chartFileName .lineTrend, render .lineTrend df2),
                (chartFileName .avgBar, render .avgBar df2),
                (chartFileName .histogram, render .histogram df2),
                (chartFileName .scatter, render .scatter df)], log⟩ := by
    rw [writeFile_eq_of_mem _ (by simp [fileNames, chartFileName])]
    simp [chartFileName]
  have w4 : writeFile ⟨true, [(chartFileName .lineTrend, render .lineTrend df2),
                (chartFileName .avgBar, render .avgBar df2),
                (chartFileName .histogram, render .histogram df2),
                (chartFileName .scatter, render .scatter df)], log⟩
        (chartFileName .scatter) (render .scatter df2)
      = ⟨true, [(chartFileName .lineTrend, render .lineTrend df2),
                (chartFileName .avgBar, render .avgBar df2),
                (chartFileName .histogram, render .histogram df2),
                (chartFileName .scatter, render .scatter df2)], log⟩ := by
    rw [writeFile_eq_of_mem _ (by simp [fileNames, chartFileName])]
    simp [chartFileName]
  show writeFile (writeFile (writeFile (writeFile ⟨true, _, log⟩ _ _) _ _) _ _) _ _ = _
  rw [w1, w2, w3, w4]

/-- C7: a visualizer run on an empty output directory leaves exactly the
four fixed chart files; a second run (on any table) keeps exactly those
four names and overwrites each file with the freshly rendered content,
without error. -/
theorem c7_visualizer_four_files (render : ChartKind → Table → ByteContent)
    (df df2 : Table) (fs0 : FileSys) (h : fs0.files = []) :
    fileNames (create_visualizations render df fs0)
      = [chartFileName .lineTrend, chartFileName .avgBar,
         chartFileName .histogram, chartFileName .scatter]
    ∧ fileNames (create_visualizations render df2 (create_visualizations render df fs0))
      = [chartFileName .lineTrend, chartFileName .avgBar,
         chartFileName .histogram, chartFileName .scatter]
    ∧ (∀ k : ChartKind,
        lookupFile (create_visualizations render df2 (create_visualizations render df fs0))
          (chartFileName k) = some (render k df2))
    ∧ (create_visualizations render df fs0).dirExists = true := by
  obtain ⟨d, files, log⟩ := fs0
  simp only at h
  subst h
  rw [create_visualizations_empty, create_visualizations_second]
  refine ⟨rfl, rfl, ?_, rfl⟩
  intro k
  cases k <;> rfl

/-- C7 (witness): a concrete renderer and table on an empty directory. -/
theorem c7_visualizer_four_files_witness :
    fileNames (create_visualizations (fun _ _ => [0]) [] ⟨false, [], []⟩)
      = [chartFileName .lineTrend, chartFileName .avgBar,
         chartFileName .histogram, chartFileName .scatter]
    ∧ fileNames (create_visualizations (fun _ _ => [0])
          [⟨1, 1, 1, 1, "setosa"⟩] (create_visualizations (fun _ _ => [0]) [] ⟨false, [], []⟩))
      = [chartFileName .lineTrend, chartFileName .avgBar,
         chartFileName .histogram, chartFileName .scatter]
    ∧ (∀ k : ChartKind,
        lookupFile (create_visualizations (fun _ _ => [0])
            [⟨1, 1, 1, 1, "setosa"⟩] (create_visualizations (fun _ _ => [0]) [] ⟨false, [], []⟩))
          (chartFileName k) = some ((fun (_ : ChartKind) (_ : Table) => ([0] : ByteContent)) k [⟨1, 1, 1, 1, "setosa"⟩]))
    ∧ (create_visualizations (fun _ _ => [0]) [] ⟨false, [], []⟩).dirExists = true :=
  c7_visualizer_four_files (fun _ _ => [0]) [] [⟨1, 1, 1, 1, "setosa"⟩] ⟨false, [], []⟩ rfl

/-- The names present after an invocation that were not present before. -/
def newNames (old upd : FileSys) : List String :=
  (fileNames upd).filter (fun n => ¬ n ∈ fileNames old)

theorem newNames_eq_nil_of_subset {old upd : FileSys}
    (h : ∀ m ∈ fileNames upd, m ∈ fileNames old) : newNames old upd = [] := by
  unfold newNames
  rw [List.filter_eq_nil_iff]
  intro a ha
  simp [h a ha]

/-- C2 (amended): every invocation adds at most one permanent file, a
rejected invocation adds none, and whenever the save phase is reached the
temporary path is gone from the final listing (deleted on the duplicate
path, renamed away on success). -/
theorem c2_temp_then_promote (env : FetchEnv) (fs : FileSys) :
    (newNames fs (fetch_and_save_image env fs).2).length ≤ 1
    ∧ ((fetch_and_save_image env fs).1 = false
        → newNames fs (fetch_and_save_image env fs).2 = [])
    ∧ (reachesSaveStep env = true
        → ¬ tempNameOf env ∈ fileNames (fetch_and_save_image env fs).2) := by
  rcases fetch_run_cases env fs with ⟨r, hnet, _, heq⟩ | ⟨hreach, h1, h2, _, _⟩
  · have htof : tempNameOf env = tempNameFor (deriveFilename env r) := by
      unfold tempNameOf
      rw [hnet]
    cases hfd : findDuplicate (tempWriteState env r fs).files (calculate_file_hash r.body) with
    | some ex =>
      have e2 : (fetch_and_save_image env fs).2
          = removeFile (logLine (tempWriteState env r fs) (dupMessage env.url ex))
              (tempNameFor (deriveFilename env r)) := by
        rw [heq, savePhase_eq_dup hfd]
      have hsub : ∀ m ∈ fileNames (fetch_and_save_image env fs).2, m ∈ fileNames fs := by
        intro m hm
        unfold fileNames at hm
        rw [e2, dup_state_files env r fs ex] at hm
        rcases List.mem_map.mp hm with ⟨f, hf, hfm⟩
        exact List.mem_map.mpr ⟨f, (List.mem_filter.mp hf).1, hfm⟩
      have hnil : newNames fs (fetch_and_save_image env fs).2 = [] :=
        newNames_eq_nil_of_subset hsub
      refine ⟨by simp [hnil], fun _ => hnil, fun _ => ?_⟩
      rw [htof]
      intro hm
      unfold fileNames at hm
      rw [e2, dup_state_files env r fs ex] at hm
      rcases List.mem_map.mp hm with ⟨f, hf, hfm⟩
      have := (List.mem_filter.mp hf).2
      rw [hfm] at this
      simp at this
    | none =>
      have e1 : (fetch_and_save_image env fs).1 = true := by
        rw [heq, savePhase_eq_promote hfd]
      have e2 : (fetch_and_save_image env fs).2.files
          = fs.files.filter (fun f => ¬ f.1 = tempNameFor (deriveFilename env r))
              ++ [(savedPath env r fs, r.body)] := by
        rw [heq, savePhase_eq_promote hfd]
        show (logLine (logLine _ _) _).files = _
        rw [logLine_files, logLine_files, promote_state_files]
      refine ⟨?_, ?_, fun _ => ?_⟩
      · unfold newNames fileNames
        rw [e2, List.map_append, List.filter_append]
        have hnil : ((fs.files.filter
              (fun f => ¬ f.1 = tempNameFor (deriveFilename env r))).map Prod.fst).filter
                (fun n => decide ¬(n ∈ fs.files.map Prod.fst)) = [] := by
          rw [List.filter_eq_nil_iff]
          intro a ha
          rcases List.mem_map.mp ha with ⟨f, hf, hfm⟩
          have hmem : a ∈ fs.files.map Prod.fst :=
            List.mem_map.mpr ⟨f, (List.mem_filter.mp hf).1, hfm⟩
          simp [hmem]
        rw [hnil]
        simp only [List.nil_append]
        calc (([(savedPath env r fs, r.body)].map Prod.fst).filter
                (fun n => decide ¬(n ∈ fs.files.map Prod.fst))).length
            ≤ ([(savedPath env r fs, r.body)].map Prod.fst).length :=
              List.length_filter_le _ _
        _ ≤ 1 := by simp
      · intro hfalse
        rw [e1] at hfalse
        cases hfalse
      · rw [htof]
        intro hm
        unfold fileNames at hm
        rw [e2, List.map_append] at hm
        rcases List.mem_append.mp hm with hA | hB
        · rcases List.mem_map.mp hA with ⟨f, hf, hfm⟩
          have := (List.mem_filter.mp hf).2
          rw [hfm] at this
          simp at this
        · have : tempNameFor (deriveFilename env r) = savedPath env r fs := by
            simpa using hB
          exact savedPath_ne_tempName env r fs this.symm
  · have hnil : newNames fs (fetch_and_save_image env fs).2 = [] := by
      apply newNames_eq_nil_of_subset
      intro m hm
      unfold fileNames at hm ⊢
      rw [h2] at hm
      exact hm
    refine ⟨by simp [hnil], fun _ => hnil, fun htrue => ?_⟩
    rw [hreach] at htrue
    cases htrue

/-- Input for the rename-failure run: a valid image response for
`http://e.com/a.jpg`. -/
def renameFailEnv : FetchEnv :=
  ⟨"http://e.com/a.jpg", "http", "/a.jpg",
    .success ⟨200, some "image/jpeg", none, [7]⟩, "t"⟩

/-- C2 (counterexample): in the run where the final `os.rename` raises,
the invocation returns failure via the generic handler but the temporary
file `temp_a.jpg` remains in the destination directory, contradicting
"on every rejection or unexpected error no temporary file remains". -/
theorem c2_counterexample_rename_failure :
    (fetch_and_save_image_renameFail renameFailEnv ⟨false, [], []⟩).1 = false
    ∧ tempNameFor "a.jpg"
        ∈ fileNames (fetch_and_save_image_renameFail renameFailEnv ⟨false, [], []⟩).2 := by
  decide

/-- No chart filename is a temporary name. -/
theorem chart_not_temp (k : ChartKind) : isTempName (chartFileName k) = false := by
  cases k <;> decide

/-- Fetching into a directory that already holds a non-temporary file
with the response's bytes: rejected as a duplicate, listing unchanged,
duplicate diagnostic printed. -/
theorem fetch_dup_into_state (env : FetchEnv) (r : HttpResponse) (fs : FileSys)
    (hnet : env.net = .success r) (hreach : reachesSaveStep env = true)
    (f0 : String × ByteContent) (hf0 : f0 ∈ fs.files)
    (ht0 : isTempName f0.1 = false) (hc0 : f0.2 = r.body)
    (hall : ∀ f ∈ fs.files, ¬ f.1 = tempNameFor (deriveFilename env r)) :
    (fetch_and_save_image env fs).1 = false
    ∧ (fetch_and_save_image env fs).2.files = fs.files
    ∧ ∃ name, dupMessage env.url name ∈ (fetch_and_save_image env fs).2.log := by
  rcases fetch_run_cases env fs with ⟨r', hnet', _, heq⟩ | ⟨hfalse, _⟩
  · rw [hnet] at hnet'
    injection hnet' with he
    subst he
    have hmem2 : f0 ∈ (tempWriteState env r fs).files := by
      unfold tempWriteState
      exact mem_writeFile_of_ne hf0 (hall f0 hf0)
    rcases findDuplicate_eq_some (tempWriteState env r fs).files
        (calculate_file_hash r.body) f0 hmem2 ht0 hc0 with ⟨ex, hfd⟩
    have e1 : (fetch_and_save_image env fs).1 = false := by
      rw [heq, savePhase_eq_dup hfd]
    have e2 : (fetch_and_save_image env fs).2
        = removeFile (logLine (tempWriteState env r fs) (dupMessage env.url ex))
            (tempNameFor (deriveFilename env r)) := by
      rw [heq, savePhase_eq_dup hfd]
    have hself : fs.files.filter (fun f => ¬ f.1 = tempNameFor (deriveFilename env r))
        = fs.files := by
      rw [List.filter_eq_self]
      intro f hf
      simp [hall f hf]
    refine ⟨e1, ?_, ex, ?_⟩
    · rw [e2, dup_state_files env r fs ex, hself]
    · rw [e2, removeFile_log]
      exact List.mem_cons_self _ _
  · exfalso
    rw [hreach] at hfalse
    cases hfalse

/-- C10: the visualizer's output directory is the fetcher's default
output directory, so the duplicate scan also hashes chart files: fetching
an image byte-identical to one of the four freshly written charts is
rejected as a duplicate, adds no file and prints the duplicate
diagnostic. -/
theorem c10_shared_directory (render : ChartKind → Table → ByteContent) (df : Table)
    (fs0 : FileSys) (env : FetchEnv) (r : HttpResponse) (k : ChartKind)
    (h0 : fs0.files = [])
    (hnet : env.net = .success r)
    (hreach : reachesSaveStep env = true)
    (hbody : r.body = render k df) :
    visualizationDir = fetchOutputDir
    ∧ (fetch_and_save_image env (create_visualizations render df fs0)).1 = false
    ∧ fileNames (fetch_and_save_image env (create_visualizations render df fs0)).2
        = fileNames (create_visualizations render df fs0)
    ∧ ∃ name, dupMessage env.url name
        ∈ (fetch_and_save_image env (create_visualizations render df fs0)).2.log := by
  obtain ⟨d, files0, log0⟩ := fs0
  simp only at h0
  subst h0
  rw [create_visualizations_empty]
  have hres := fetch_dup_into_state env r
    ⟨true, [(chartFileName .lineTrend, render .lineTrend df),
            (chartFileName .avgBar, render .avgBar df),
            (chartFileName .histogram, render .histogram df),
            (chartFileName .scatter, render .scatter df)], log0⟩
    hnet hreach (chartFileName k, render k df)
    (by cases k <;> simp)
    (chart_not_temp k)
    hbody.symm
    (by
      intro f hf
      simp only [List.mem_cons, List.not_mem_nil, or_false] at hf
      rcases hf with rfl | rfl | rfl | rfl
      · exact ne_tempNameFor_of_not_temp (chart_not_temp .lineTrend) _
      · exact ne_tempNameFor_of_not_temp (chart_not_temp .avgBar) _
      · exact ne_tempNameFor_of_not_temp (chart_not_temp .histogram) _
      · exact ne_tempNameFor_of_not_temp (chart_not_temp .scatter) _)
  refine ⟨rfl, hres.1, ?_, hres.2.2⟩
  unfold fileNames
  rw [hres.2.1]

/-- C10 (witness): a concrete chart content refetched as an image. -/
theorem c10_shared_directory_witness :
    visualizationDir = fetchOutputDir
    ∧ (fetch_and_save_image
        ⟨"http://e.com/a.jpg", "http", "/a.jpg", .success ⟨200, some "image/jpeg", none, [5]⟩, "t"⟩
        (create_visualizations (fun _ _ => [5]) [] ⟨false, [], []⟩)).1 = false
    ∧ fileNames (fetch_and_save_image
        ⟨"http://e.com/a.jpg", "http", "/a.jpg", .success ⟨200, some "image/jpeg", none, [5]⟩, "t"⟩
        (create_visualizations (fun _ _ => [5]) [] ⟨false, [], []⟩)).2
      = fileNames (create_visualizations (fun _ _ => [5]) [] ⟨false, [], []⟩)
    ∧ ∃ name, dupMessage "http://e.com/a.jpg" name
        ∈ (fetch_and_save_image
            ⟨"http://e.com/a.jpg", "http", "/a.jpg", .success ⟨200, some "image/jpeg", none, [5]⟩, "t"⟩
            (create_visualizations (fun _ _ => [5]) [] ⟨false, [], []⟩)).2.log :=
  c10_shared_directory (fun _ _ => [5]) [] ⟨false, [], []⟩
    ⟨"http://e.com/a.jpg", "http", "/a.jpg", .success ⟨200, some "image/jpeg", none, [5]⟩, "t"⟩
    ⟨200, some "image/jpeg", none, [5]⟩ .lineTrend rfl rfl (by decide) rfl

/-- C1 (amended): two sequential fetches of the same bytes, starting from
a directory holding no file with those bytes: provided the first
invocation's saved filename does not begin with `temp_`, the first
succeeds, the second is rejected as a duplicate with its diagnostic, and
exactly one file with those bytes exists afterwards. -/
theorem c1_amended_dedup (env1 env2 : FetchEnv) (r1 r2 : HttpResponse)
    (c : ByteContent) (fs : FileSys)
    (h1net : env1.net = .success r1) (h1reach : reachesSaveStep env1 = true)
    (h2net : env2.net = .success r2) (h2reach : reachesSaveStep env2 = true)
    (h1b : r1.body = c) (h2b : r2.body = c)
    (hfresh : ∀ f ∈ fs.files, ¬ f.2 = c)
    (hsaved : isTempName (savedPath env1 r1 fs) = false) :
    (fetch_and_save_image env1 fs).1 = true
    ∧ (fetch_and_save_image env2 (fetch_and_save_image env1 fs).2).1 = false
    ∧ ((fetch_and_save_image env2 (fetch_and_save_image env1 fs).2).2.files.filter
        (fun f => f.2 = c)).length = 1
    ∧ ∃ name, dupMessage env2.url name
        ∈ (fetch_and_save_image env2 (fetch_and_save_image env1 fs).2).2.log := by
  rcases fetch_run_cases env1 fs with ⟨r1', hnet1', _, heq1⟩ | ⟨hfalse1, _⟩
  · rw [h1net] at hnet1'
    injection hnet1' with he1
    subst he1
    have hfd1 : findDuplicate (tempWriteState env1 r1 fs).files
        (calculate_file_hash r1.body) = none := by
      apply findDuplicate_eq_none
      intro f hf
      unfold tempWriteState at hf
      rcases mem_writeFile_cases hf with hold | hnew
      · right
        show ¬ f.2 = calculate_file_hash r1.body
        unfold calculate_file_hash
        rw [h1b]
        exact hfresh f hold
      · left
        rw [hnew]
        exact isTempName_tempNameFor _
    have e1 : (fetch_and_save_image env1 fs).1 = true := by
      rw [heq1, savePhase_eq_promote hfd1]
    have e2 : (fetch_and_save_image env1 fs).2.files
        = fs.files.filter (fun f => ¬ f.1 = tempNameFor (deriveFilename env1 r1))
            ++ [(savedPath env1 r1 fs, r1.body)] := by
      rw [heq1, savePhase_eq_promote hfd1]
      show (logLine (logLine _ _) _).files = _
      rw [logLine_files, logLine_files, promote_state_files]
    have hst1c : (fetch_and_save_image env1 fs).2.files.filter (fun f => f.2 = c)
        = [(savedPath env1 r1 fs, c)] := by
      have hA : ((fs.files.filter
            (fun f => ¬ f.1 = tempNameFor (deriveFilename env1 r1))).filter
              (fun f => f.2 = c)) = [] := by
        rw [List.filter_eq_nil_iff]
        intro f hf
        have := hfresh f (List.mem_filter.mp hf).1
        simp [this]
      rw [e2, List.filter_append, hA, List.nil_append, h1b]
      simp
    rcases fetch_run_cases env2 (fetch_and_save_image env1 fs).2
      with ⟨r2', hnet2', _, heq2⟩ | ⟨hfalse2, _⟩
    · rw [h2net] at hnet2'
      injection hnet2' with he2
      subst he2
      have hp1mem : (savedPath env1 r1 fs, c) ∈ (fetch_and_save_image env1 fs).2.files := by
        rw [e2, h1b]
        exact List.mem_append.mpr (Or.inr (List.mem_singleton.mpr rfl))
      have hmem2 : (savedPath env1 r1 fs, c)
          ∈ (tempWriteState env2 r2 (fetch_and_save_image env1 fs).2).files := by
        unfold tempWriteState
        exact mem_writeFile_of_ne hp1mem (ne_tempNameFor_of_not_temp hsaved _)
      rcases findDuplicate_eq_some
          (tempWriteState env2 r2 (fetch_and_save_image env1 fs).2).files
          (calculate_file_hash r2.body) (savedPath env1 r1 fs, c) hmem2 hsaved
          (by
            show c = calculate_file_hash r2.body
            unfold calculate_file_hash
            rw [h2b]) with ⟨ex, hfd2⟩
      have f1 : (fetch_and_save_image env2 (fetch_and_save_image env1 fs).2).1 = false := by
        rw [heq2, savePhase_eq_dup hfd2]
      have f2 : (fetch_and_save_image env2 (fetch_and_save_image env1 fs).2).2
          = removeFile (logLine (tempWriteState env2 r2 (fetch_and_save_image env1 fs).2)
              (dupMessage env2.url ex)) (tempNameFor (deriveFilename env2 r2)) := by
        rw [heq2, savePhase_eq_dup hfd2]
      refine ⟨e1, f1, ?_, ex, ?_⟩
      · rw [f2, dup_state_files env2 r2 (fetch_and_save_image env1 fs).2 ex,
          List.filter_comm, hst1c]
        simp [ne_tempNameFor_of_not_temp hsaved (deriveFilename env2 r2)]
      · rw [f2, removeFile_log]
        exact List.mem_cons_self _ _
    · exfalso
      rw [h2reach] at hfalse2
      cases hfalse2
  · exfalso
    rw [h1reach] at hfalse1
    cases hfalse1

/-- First fetch of the counterexample: the URL basename is
`temp_a.jpg`, so the permanent file is saved under a `temp_`-prefixed
name. -/
def c1Env1 : FetchEnv :=
  ⟨"http://e.com/temp_a.jpg", "http", "/temp_a.jpg",
    .success ⟨200, some "image/jpeg", none, [9]⟩, "t"⟩

/-- Second fetch of the counterexample: same bytes, different URL. -/
def c1Env2 : FetchEnv :=
  ⟨"http://e.com/b.jpg", "http", "/b.jpg",
    .success ⟨200, some "image/jpeg", none, [9]⟩, "t"⟩

/-- C1 (counterexample): after fetching `temp_a.jpg` and then the same
bytes from `/b.jpg` into an empty directory, the second invocation
succeeds (the duplicate scan skipped the permanent file `temp_a.jpg`
because its name starts with `temp_`) and two permanent files with the
same content exist — the claim promised failure and exactly one file. -/
theorem c1_counterexample_temp_named_file :
    (fetch_and_save_image c1Env2 (fetch_and_save_image c1Env1 ⟨false, [], []⟩).2).1 = true
    ∧ ((fetch_and_save_image c1Env2
          (fetch_and_save_image c1Env1 ⟨false, [], []⟩).2).2.files.filter
        (fun f => f.2 = [9])).length = 2 := by
  decide

/-- First fetch of the witness run. -/
def c1wEnv1 : FetchEnv :=
  ⟨"http://e.com/a.jpg", "http", "/a.jpg",
    .success ⟨200, some "image/jpeg", none, [1]⟩, "t"⟩

/-- Second fetch of the witness run: same bytes, different URL. -/
def c1wEnv2 : FetchEnv :=
  ⟨"http://e.com/b.jpg", "http", "/b.jpg",
    .success ⟨200, some "image/jpeg", none, [1]⟩, "t"⟩

/-- C1 (witness): the amended claim at a concrete pair of fetches. -/
theorem c1_amended_dedup_witness :
    (fetch_and_save_image c1wEnv1 ⟨false, [], []⟩).1 = true
    ∧ (fetch_and_save_image c1wEnv2 (fetch_and_save_image c1wEnv1 ⟨false, [], []⟩).2).1 = false
    ∧ ((fetch_and_save_image c1wEnv2
          (fetch_and_save_image c1wEnv1 ⟨false, [], []⟩).2).2.files.filter
        (fun f => f.2 = [1])).length = 1
    ∧ ∃ name, dupMessage c1wEnv2.url name
        ∈ (fetch_and_save_image c1wEnv2
            (fetch_and_save_image c1wEnv1 ⟨false, [], []⟩).2).2.log :=
  c1_amended_dedup c1wEnv1 c1wEnv2 ⟨200, some "image/jpeg", none, [1]⟩
    ⟨200, some "image/jpeg", none, [1]⟩ [1] ⟨false, [], []⟩
    rfl (by decide) rfl (by decide) rfl rfl (by simp) (by decide)

/-- `fileNames` ignores the directory flag. -/
theorem fileNames_set_dir (fs : FileSys) (b : Bool) :
    fileNames { fs with dirExists := b } = fileNames fs := rfl

/-- C6: two sequential fetches of different bytes whose derived filenames
collide, into a directory that holds neither content, neither the derived
name nor its temporary name: both succeed, the first is saved under the
derived name, and the second under the derived name with a numeric suffix
before the extension, incremented (from 1) past every taken candidate
until a free one was found. -/
theorem c6_collision_suffix (env1 env2 : FetchEnv) (r1 r2 : HttpResponse) (fs : FileSys)
    (h1net : env1.net = .success r1) (h1reach : reachesSaveStep env1 = true)
    (h2net : env2.net = .success r2) (h2reach : reachesSaveStep env2 = true)
    (hsame : deriveFilename env2 r2 = deriveFilename env1 r1)
    (hdiff : ¬ r2.body = r1.body)
    (hfresh1 : ∀ f ∈ fs.files, ¬ f.2 = r1.body)
    (hfresh2 : ∀ f ∈ fs.files, ¬ f.2 = r2.body)
    (hn : ¬ deriveFilename env1 r1 ∈ fileNames fs)
    (ht : ¬ tempNameFor (deriveFilename env1 r1) ∈ fileNames fs) :
    (fetch_and_save_image env1 fs).1 = true
    ∧ (fetch_and_save_image env2 (fetch_and_save_image env1 fs).2).1 = true
    ∧ ∃ k, 1 ≤ k
      ∧ (fetch_and_save_image env2 (fetch_and_save_image env1 fs).2).2.files
          = fs.files ++ [(deriveFilename env1 r1, r1.body),
              (mkSuffixed (splitext (deriveFilename env1 r1)).1
                (splitext (deriveFilename env1 r1)).2 k, r2.body)]
      ∧ ¬ mkSuffixed (splitext (deriveFilename env1 r1)).1
            (splitext (deriveFilename env1 r1)).2 k = deriveFilename env1 r1
      ∧ ∀ j, 1 ≤ j → j < k →
          mkSuffixed (splitext (deriveFilename env1 r1)).1
            (splitext (deriveFilename env1 r1)).2 j
            ∈ fileNames (tempWriteState env2 r2 (fetch_and_save_image env1 fs).2) := by
  have t2n : tempNameFor (deriveFilename env2 r2) = tempNameFor (deriveFilename env1 r1) := by
    rw [hsame]
  rcases fetch_run_cases env1 fs with ⟨r1', hnet1', _, heq1⟩ | ⟨hfalse1, _⟩
  · rw [h1net] at hnet1'
    injection hnet1' with he1
    subst he1
    have hfd1 : findDuplicate (tempWriteState env1 r1 fs).files
        (calculate_file_hash r1.body) = none := by
      apply findDuplicate_eq_none
      intro f hf
      unfold tempWriteState at hf
      rcases mem_writeFile_cases hf with hold | hnew
      · right
        show ¬ f.2 = calculate_file_hash r1.body
        unfold calculate_file_hash
        exact hfresh1 f hold
      · left
        rw [hnew]
        exact isTempName_tempNameFor _
    have e1 : (fetch_and_save_image env1 fs).1 = true := by
      rw [heq1, savePhase_eq_promote hfd1]
    have hnames_tw1 : fileNames (tempWriteState env1 r1 fs)
        = fileNames fs ++ [tempNameFor (deriveFilename env1 r1)] := by
      unfold tempWriteState
      rw [fileNames_writeFile_fresh _ (by rw [fileNames_set_dir]; exact ht),
        fileNames_set_dir]
    have hp1 : savedPath env1 r1 fs = deriveFilename env1 r1 := by
      unfold savedPath
      apply get_unique_filename_free
      rw [hnames_tw1]
      intro hmem
      rcases List.mem_append.mp hmem with h | h
      · exact hn h
      · exact tempNameFor_ne_self (deriveFilename env1 r1) (List.mem_singleton.mp h).symm
    have hself1 : fs.files.filter
        (fun f => ¬ f.1 = tempNameFor (deriveFilename env1 r1)) = fs.files := by
      rw [List.filter_eq_self]
      intro f hf
      have hne : ¬ f.1 = tempNameFor (deriveFilename env1 r1) :=
        fun he => ht (List.mem_map.mpr ⟨f, hf, he⟩)
      simp [hne]
    have e2 : (fetch_and_save_image env1 fs).2.files
        = fs.files ++ [(deriveFilename env1 r1, r1.body)] := by
      rw [heq1, savePhase_eq_promote hfd1]
      show (logLine (logLine _ _) _).files = _
      rw [logLine_files, logLine_files, promote_state_files, hp1, hself1]
    have hnames_st1 : fileNames (fetch_and_save_image env1 fs).2
        = fileNames fs ++ [deriveFilename env1 r1] := by
      unfold fileNames
      rw [e2, List.map_append]
      rfl
    rcases fetch_run_cases env2 (fetch_and_save_image env1 fs).2
      with ⟨r2', hnet2', _, heq2⟩ | ⟨hfalse2, _⟩
    · rw [h2net] at hnet2'
      injection hnet2' with he2
      subst he2
      have hfd2 : findDuplicate (tempWriteState env2 r2 (fetch_and_save_image env1 fs).2).files
          (calculate_file_hash r2.body) = none := by
        apply findDuplicate_eq_none
        intro f hf
        unfold tempWriteState at hf
        rcases mem_writeFile_cases hf with hold | hnew
        · rw [e2] at hold
          rcases List.mem_append.mp hold with hf1 | hf2
          · right
            show ¬ f.2 = calculate_file_hash r2.body
            unfold calculate_file_hash
            exact hfresh2 f hf1
          · right
            rw [List.mem_singleton.mp hf2]
            show ¬ r1.body = calculate_file_hash r2.body
            unfold calculate_file_hash
            intro hh
            exact hdiff hh.symm
        · left
          rw [hnew]
          exact isTempName_tempNameFor _
      have f1 : (fetch_and_save_image env2 (fetch_and_save_image env1 fs).2).1 = true := by
        rw [heq2, savePhase_eq_promote hfd2]
      have ht2st1 : ¬ tempNameFor (deriveFilename env2 r2)
          ∈ fileNames (fetch_and_save_image env1 fs).2 := by
        rw [t2n, hnames_st1]
        intro hmem
        rcases List.mem_append.mp hmem with h | h
        · exact ht h
        · exact tempNameFor_ne_self (deriveFilename env1 r1) (List.mem_singleton.mp h)
      have hnames_tw2 : fileNames (tempWriteState env2 r2 (fetch_and_save_image env1 fs).2)
          = (fileNames fs ++ [deriveFilename env1 r1])
              ++ [tempNameFor (deriveFilename env2 r2)] := by
        unfold tempWriteState
        rw [fileNames_writeFile_fresh _ (by rw [fileNames_set_dir]; exact ht2st1),
          fileNames_set_dir, hnames_st1]
      have hp2taken : deriveFilename env2 r2
          ∈ fileNames (tempWriteState env2 r2 (fetch_and_save_image env1 fs).2) := by
        rw [hnames_tw2, hsame]
        exact List.mem_append.mpr (Or.inl (List.mem_append.mpr
          (Or.inr (List.mem_singleton.mpr rfl))))
      rcases get_unique_filename_spec_taken hp2taken with ⟨k, hk1, heqp, hfreep, hminp⟩
      have hself2 : (fetch_and_save_image env1 fs).2.files.filter
          (fun f => ¬ f.1 = tempNameFor (deriveFilename env2 r2))
            = (fetch_and_save_image env1 fs).2.files := by
        rw [List.filter_eq_self]
        intro f hf
        rw [e2] at hf
        rcases List.mem_append.mp hf with hf1 | hf2
        · have hne : ¬ f.1 = tempNameFor (deriveFilename env2 r2) := by
            rw [t2n]
            exact fun he => ht (List.mem_map.mpr ⟨f, hf1, he⟩)
          simp [hne]
        · have hne : ¬ f.1 = tempNameFor (deriveFilename env2 r2) := by
            rw [List.mem_singleton.mp hf2, t2n]
            intro hh
            exact tempNameFor_ne_self (deriveFilename env1 r1) hh.symm
          simp [hne]
      have f2 : (fetch_and_save_image env2 (fetch_and_save_image env1 fs).2).2.files
          = fs.files ++ [(deriveFilename env1 r1, r1.body),
              (savedPath env2 r2 (fetch_and_save_image env1 fs).2, r2.body)] := by
        rw [heq2, savePhase_eq_promote hfd2]
        show (logLine (logLine _ _) _).files = _
        rw [logLine_files, logLine_files, promote_state_files, hself2, e2,
          List.append_assoc]
        rfl
      have hsp2 : savedPath env2 r2 (fetch_and_save_image env1 fs).2
          = mkSuffixed (splitext (deriveFilename env1 r1)).1
              (splitext (deriveFilename env1 r1)).2 k := by
        unfold savedPath
        rw [heqp, hsame]
      refine ⟨e1, f1, k, hk1, ?_, ?_, ?_⟩
      · rw [f2, hsp2]
      · intro hh
        apply hfreep
        rw [hsame, hh, ← hsame]
        exact hp2taken
      · intro j hj1 hjk
        have := hminp j hj1 hjk
        rw [hsame] at this
        exact this
    · exfalso
      rw [h2reach] at hfalse2
      cases hfalse2
  · exfalso
    rw [h1reach] at hfalse1
    cases hfalse1

/-- First fetch of the collision witness: `a.jpg` with bytes `[1]`. -/
def c6wEnv1 : FetchEnv :=
  ⟨"http://e.com/a.jpg", "http", "/a.jpg",
    .success ⟨200, some "image/jpeg", none, [1]⟩, "t"⟩

/-- Second fetch of the collision witness: the same derived name `a.jpg`
with different bytes `[2]`. -/
def c6wEnv2 : FetchEnv :=
  ⟨"http://e.com/a.jpg", "http", "/a.jpg",
    .success ⟨200, some "image/jpeg", none, [2]⟩, "t"⟩

/-- C6 (witness): the collision claim at a concrete pair of fetches. -/
theorem c6_collision_suffix_witness :
    (fetch_and_save_image c6wEnv1 ⟨false, [], []⟩).1 = true
    ∧ (fetch_and_save_image c6wEnv2 (fetch_and_save_image c6wEnv1 ⟨false, [], []⟩).2).1 = true
    ∧ ∃ k, 1 ≤ k
      ∧ (fetch_and_save_image c6wEnv2
            (fetch_and_save_image c6wEnv1 ⟨false, [], []⟩).2).2.files
          = (⟨false, [], []⟩ : FileSys).files
              ++ [(deriveFilename c6wEnv1 ⟨200, some "image/jpeg", none, [1]⟩, [1]),
                  (mkSuffixed
                    (splitext (deriveFilename c6wEnv1 ⟨200, some "image/jpeg", none, [1]⟩)).1
                    (splitext (deriveFilename c6wEnv1 ⟨200, some "image/jpeg", none, [1]⟩)).2 k,
                    [2])]
      ∧ ¬ mkSuffixed
            (splitext (deriveFilename c6wEnv1 ⟨200, some "image/jpeg", none, [1]⟩)).1
            (splitext (deriveFilename c6wEnv1 ⟨200, some "image/jpeg", none, [1]⟩)).2 k
          = deriveFilename c6wEnv1 ⟨200, some "image/jpeg", none, [1]⟩
      ∧ ∀ j, 1 ≤ j → j < k →
          mkSuffixed
            (splitext (deriveFilename c6wEnv1 ⟨200, some "image/jpeg", none, [1]⟩)).1
            (splitext (deriveFilename c6wEnv1 ⟨200, some "image/jpeg", none, [1]⟩)).2 j
            ∈ fileNames (tempWriteState c6wEnv2 ⟨200, some "image/jpeg", none, [2]⟩
                (fetch_and_save_image c6wEnv1 ⟨false, [], []⟩).2) :=
  c6_collision_suffix c6wEnv1 c6wEnv2
    ⟨200, some "image/jpeg", none, [1]⟩ ⟨200, some "image/jpeg", none, [2]⟩
    ⟨false, [], []⟩ rfl (by decide) rfl (by decide) rfl (by decide)
    (by simp) (by simp) (by decide) (by decide)
